import Mathlib

/-!
Shallow embedding of `pkg/k8smanifest/verify.go` from the
`k8s-manifest-sigstore` repository (file `src/pkg/k8smanifest/verify.go`):
the verifier/fetcher factories, the image and blob signature verifiers,
the image and blob manifest fetchers, and the shared result cache access.

External collaborators (the cosign image-verification dispatcher, image
pulls, the manifest matcher, base64 and gzip codecs, the cluster API, the
signature-type classifier) are modelled as explicit function parameters.
Go byte slices are modelled as `String`; Go maps are association lists
with first-match lookup; the process-wide on-memory cache is threaded
explicitly as a value.
-/

/-- Modelled from the spec: `k8smnfutil.SplitCommaSeparatedString` is not part
of `src/`; the spec describes it as splitting a comma-separated configuration
string into an ordered list (Go `strings.Split` semantics: the empty string
yields a single empty entry). -/
def splitCommaAux (c : Char) (acc : List (List Char)) : List (List Char) :=
  if c = ',' then [] :: acc
  else
    match acc with
    | h :: t => (c :: h) :: t
    | [] => [[c]]

/-- Modelled from the spec: comma splitting of a configuration string. -/
def SplitCommaSeparatedString (s : String) : List String :=
  (s.data.foldr splitCommaAux [[]]).map (fun cs => String.mk cs)

/-- Go map lookup (`value, ok := m[k]`) over an association list: first
matching entry wins. -/
def mapLookup (m : List (String × String)) (k : String) : Option String :=
  (m.find? (fun p => p.1 == k)).map (fun p => p.2)

/-- Modelled from the spec: Go `strings.HasPrefix`, used by the factory on the
explicit reference string (`k8smnfutil` helpers are outside `src/`). -/
def listHasPre : List Char → List Char → Bool
  | [], _ => true
  | _ :: _, [] => false
  | a :: as, b :: bs => a == b && listHasPre as bs

/-- Modelled from the spec: `strings.HasPrefix (s, p)` as `strHasPre p s`. -/
def strHasPre (p s : String) : Bool := listHasPre p.data s.data

/-- Modelled from the spec: `InClusterObjectPrefix` is defined outside `src/`;
per the glossary an in-cluster resource reference is written
`k8s://Kind/namespace/name` (see also the error text at verify.go line 522). -/
def InClusterObjectPrefix : String := "k8s://"

/-- Embedded sentinel (verify.go line 37): marker meaning the signature
payload lives in the target object's own annotations. -/
def SigRefEmbeddedInAnnotation : String := "__embedded_in_annotation__"

/-- Modelled from the spec: the four fixed logical keys of a signature
config-object data map (constants defined outside `src/`). -/
def MessageAnnotationBaseName : String := "message"

/-- Modelled from the spec: fixed logical key for the signature field. -/
def SignatureAnnotationBaseName : String := "signature"

/-- Modelled from the spec: fixed logical key for the certificate field. -/
def CertificateAnnotationBaseName : String := "certificate"

/-- Modelled from the spec: fixed logical key for the bundle field. -/
def BundleAnnotationBaseName : String := "bundle"

/-- Modelled from the spec: `AnnotationConfig` (defined outside `src/`) is an
injected mapping from logical purpose to the actual annotation key; the Go
methods `ImageRefAnnotationKey()`, `MessageAnnotationKey()`,
`SignatureAnnotationKey()`, `CertificateAnnotationKey()` and
`BundleAnnotationKey()` are modelled as field reads. -/
structure AnnotationConfig where
  imageRefKey : String
  messageKey : String
  signatureKey : String
  certificateKey : String
  bundleKey : String
deriving DecidableEq, Repr

/-- One opaque `interface\x7b\x7d` value stored in a cache tuple: `nilV` is a nil
interface; the other constructors carry the dynamic types the code stores
(`bool`, `string`, `[]byte`, `*int64` — whose pointed-to value may itself be
nil — and `error`, kept as its message). -/
inductive CacheVal where
  | nilV : CacheVal
  | boolV : Bool → CacheVal
  | strV : String → CacheVal
  | bytesV : String → CacheVal
  | tsPtrV : Option Int → CacheVal
  | errV : String → CacheVal
deriving DecidableEq, Repr

/-- The shared on-memory result cache: a list of writes, newest first; `Get`
returns the newest tuple for a key, and a missing key is the only `Get`
failure (comment at verify.go lines 146 and 381). -/
abbrev Cache := List (String × List CacheVal)

/-- Cache `Get`: newest write for the key, or `none` for a miss. -/
def cacheGet (c : Cache) (k : String) : Option (List CacheVal) :=
  (c.find? (fun e => e.1 == k)).map (fun e => e.2)

/-- Cache `Set`: prepend a write (a later `Get` sees the newest value). -/
def cacheSet (c : Cache) (k : String) (vs : List CacheVal) : Cache :=
  (k, vs) :: c

/-- The four values `Verify()` returns: `(verified, signerName,
signedTimestamp, err)`, with the error kept as its message. -/
structure VerifyOutcome where
  verified : Bool
  signer : String
  signedTimestamp : Option Int
  errMsg : Option String
deriving DecidableEq, Repr

/-- `ImageSignatureVerifier` (verify.go lines 71-76). -/
structure ImageSignatureVerifier where
  imageRef : String
  pubkeyPathString : Option String
  onMemoryCacheEnabled : Bool
  annotationConfig : AnnotationConfig
deriving DecidableEq, Repr

/-- `BlobSignatureVerifier` (verify.go lines 178-183); `annotations` is the
result of `GetAnnotationsInYAML` on the target object. -/
structure BlobSignatureVerifier where
  annotations : List (String × String)
  resourceRef : String
  pubkeyPathString : Option String
  annotationConfig : AnnotationConfig
deriving DecidableEq, Repr

/-- The closed two-case selection the factory returns (spec section 9 models
the interface as a tagged variant with exactly these two cases). -/
inductive SignatureVerifierSel where
  | image : ImageSignatureVerifier → SignatureVerifierSel
  | blob : BlobSignatureVerifier → SignatureVerifierSel
deriving DecidableEq, Repr

/-- Discriminator: whether the factory chose the blob path. -/
def SignatureVerifierSel.isBlob : SignatureVerifierSel → Bool
  | SignatureVerifierSel.image _ => false
  | SignatureVerifierSel.blob _ => true

/-- Normalization of the `pubkeyPath` argument (verify.go lines 59-62): a nil
pointer or an empty string both become the unset key path. -/
def normalizePubkeyPath (pubkeyPath : Option String) : Option String :=
  match pubkeyPath with
  | some p => if p = "" then none else some p
  | none => none

/-- `NewSignatureVerifier` (verify.go lines 43-69). The target object is
represented by its extracted annotations (`GetAnnotationsInYAML`, an external
helper, is modelled as that extraction). -/
def NewSignatureVerifier (objAnnotations : List (String × String)) (sigRef : String)
    (pubkeyPath : Option String) (cfg : AnnotationConfig) : SignatureVerifierSel :=
  let resourceRef := if strHasPre InClusterObjectPrefix sigRef then sigRef else ""
  let imageRefInit := if strHasPre InClusterObjectPrefix sigRef then "" else sigRef
  let imageRef :=
    if imageRefInit = "" then
      match mapLookup objAnnotations cfg.imageRefKey with
      | some annoImageRef => annoImageRef
      | none => ""
    else imageRefInit
  let pubkeyPathString := normalizePubkeyPath pubkeyPath
  if imageRef ≠ "" ∧ imageRef ≠ SigRefEmbeddedInAnnotation then
    SignatureVerifierSel.image ⟨imageRef, pubkeyPathString, true, cfg⟩
  else
    SignatureVerifierSel.blob ⟨objAnnotations, resourceRef, pubkeyPathString, cfg⟩

/-- `ImageManifestFetcher` (verify.go lines 281-287). -/
structure ImageManifestFetcher where
  imageRefString : String
  annotationConfig : AnnotationConfig
  ignoreFields : List String
  maxResourceManifestNum : Int
  cacheEnabled : Bool
deriving DecidableEq, Repr

/-- `BlobManifestFetcher` (verify.go lines 411-416). -/
structure BlobManifestFetcher where
  annotationConfig : AnnotationConfig
  resourceRefString : String
  ignoreFields : List String
  maxResourceManifestNum : Int
deriving DecidableEq, Repr

/-- The closed two-case selection `NewManifestFetcher` returns. -/
inductive ManifestFetcherSel where
  | image : ImageManifestFetcher → ManifestFetcherSel
  | blob : BlobManifestFetcher → ManifestFetcherSel
deriving DecidableEq, Repr

/-- `NewManifestFetcher` (verify.go lines 272-278). -/
def NewManifestFetcher (imageRef resourceRef : String) (cfg : AnnotationConfig)
    (ignoreFields : List String) (maxResourceManifestNum : Int) : ManifestFetcherSel :=
  if imageRef ≠ "" then
    ManifestFetcherSel.image ⟨imageRef, cfg, ignoreFields, maxResourceManifestNum, true⟩
  else
    ManifestFetcherSel.blob ⟨cfg, resourceRef, ignoreFields, maxResourceManifestNum⟩

/-- Cache key of the verify-image operation (verify.go lines 142 and 171). -/
def verifyImageCacheKey (imageRef pubkey : String) : String :=
  "cache/verify-image/" ++ imageRef ++ "/" ++ pubkey

/-- Error text for a verify-image cache tuple of wrong arity (verify.go
line 150). -/
def cacheInconsistentVerifyMsg (n : Nat) : String :=
  "cache returns inconsistent data: a length of verify image result must be 4, but got " ++ toString n

/-- `ImageSignatureVerifier.getResultFromCache` (verify.go lines 141-168):
`(found, (verified, signer, timestamp, error))`. A `GetCache` failure (a
missing key) is a miss; a tuple whose length is not 4 yields `found = false`
together with the inconsistency error; otherwise each non-nil slot is read
with its stored dynamic type (non-matching non-nil types, a Go panic, do not
arise from the writes this file models). -/
def getResultFromCache (cache : Cache) (imageRef pubkey : String) : Bool × VerifyOutcome :=
  match cacheGet cache (verifyImageCacheKey imageRef pubkey) with
  | none => (false, ⟨false, "", none, none⟩)
  | some result =>
    if result.length = 4 then
      let verified := match result.getD 0 CacheVal.nilV with
        | CacheVal.boolV b => b
        | _ => false
      let signerName := match result.getD 1 CacheVal.nilV with
        | CacheVal.strV s => s
        | _ => ""
      let signedTimestamp := match result.getD 2 CacheVal.nilV with
        | CacheVal.tsPtrV t => t
        | _ => none
      let errMsg := match result.getD 3 CacheVal.nilV with
        | CacheVal.errV e => some e
        | _ => none
      (true, ⟨verified, signerName, signedTimestamp, errMsg⟩)
    else
      (false, ⟨false, "", none, some (cacheInconsistentVerifyMsg result.length)⟩)

/-- The tuple `setResultToCache` stores (verify.go line 172): the `*int64`
timestamp goes in as a (possibly nil) pointer boxed in a non-nil interface,
a nil error as a nil interface. -/
def encodeVerifyOutcome (o : VerifyOutcome) : List CacheVal :=
  [CacheVal.boolV o.verified, CacheVal.strV o.signer, CacheVal.tsPtrV o.signedTimestamp,
   match o.errMsg with
   | some e => CacheVal.errV e
   | none => CacheVal.nilV]

/-- `ImageSignatureVerifier.setResultToCache` (verify.go lines 170-176); a
`SetCache` failure is only logged, so the write is modelled as succeeding. -/
def setResultToCache (cache : Cache) (imageRef pubkey : String) (o : VerifyOutcome) : Cache :=
  cacheSet cache (verifyImageCacheKey imageRef pubkey) (encodeVerifyOutcome o)

/-- The ordered key list `Verify` iterates (verify.go lines 84-90): the split
key-path configuration, or a single empty key when unset. -/
def pubkeysOf (v : ImageSignatureVerifier) : List String :=
  match v.pubkeyPathString with
  | some p => if p = "" then [""] else SplitCommaSeparatedString p
  | none => [""]

/-- State of the cache-consultation loop of `Verify` (verify.go lines
96-118) when it finishes without an early return. -/
structure CacheStage where
  early : Option VerifyOutcome
  foundCount : Nat
  allErrs : List String
  lastVerified : Bool
deriving DecidableEq, Repr

/-- The cache-consultation loop of `Verify` (verify.go lines 100-114): count
hits, return at once on a hit with `verified = true`, and collect every
non-nil error message. -/
def verifyCacheLoop (cache : Cache) (imageRef : String) :
    List String → Nat → List String → Bool → CacheStage
  | [], cacheFoundCount, allErrs, lastVerified =>
    ⟨none, cacheFoundCount, allErrs, lastVerified⟩
  | pubkey :: rest, cacheFoundCount, allErrs, _lastVerified =>
    let r := getResultFromCache cache imageRef pubkey
    let count := if r.1 then cacheFoundCount + 1 else cacheFoundCount
    if r.1 ∧ r.2.verified then
      ⟨some r.2, count, allErrs, r.2.verified⟩
    else
      let errs := match r.2.errMsg with
        | some e => allErrs ++ [e]
        | none => allErrs
      verifyCacheLoop cache imageRef rest count errs r.2.verified

/-- What the live-verification loop of `Verify` produces. -/
structure LiveStage where
  outcome : VerifyOutcome
  cache : Cache
  invoked : List String
deriving DecidableEq, Repr

/-- The live-verification loop of `Verify` (verify.go lines 121-138):
dispatch to the external verifier per key in order, write each outcome back to
the cache when caching is enabled, return on the first verified key, and on
total failure join the error messages with a semicolon. -/
def verifyLiveLoop (live : String → String → VerifyOutcome) (cacheEnabled : Bool) (imageRef : String) :
    List String → Cache → List String → List String → LiveStage
  | [], cache, allErrs, invoked =>
    ⟨⟨false, "", none, some ("signature verification failed: " ++ String.intercalate "; " allErrs)⟩,
     cache, invoked⟩
  | pubkey :: rest, cache, allErrs, invoked =>
    let o := live imageRef pubkey
    let cache1 := if cacheEnabled then setResultToCache cache imageRef pubkey o else cache
    if o.verified then
      ⟨o, cache1, invoked ++ [pubkey]⟩
    else
      let errs := match o.errMsg with
        | some e => allErrs ++ [e]
        | none => allErrs
      verifyLiveLoop live cacheEnabled imageRef rest cache1 errs (invoked ++ [pubkey])

/-- Everything a call of `ImageSignatureVerifier.Verify` produces or touches:
the returned outcome, the receiver as it stands after the call, the cache
after the call, and the keys passed to the external live verifier. -/
structure VerifyRun where
  outcome : VerifyOutcome
  inst : ImageSignatureVerifier
  cache : Cache
  liveInvoked : List String
deriving DecidableEq, Repr

/-- `ImageSignatureVerifier.Verify` (verify.go lines 78-139). `live` is the
external `k8smnfcosign.VerifyImage` dispatcher. -/
def ImageSignatureVerifier.Verify (live : String → String → VerifyOutcome)
    (v : ImageSignatureVerifier) (cache : Cache) : VerifyRun :=
  if v.imageRef = "" then
    ⟨⟨false, "", none, some "no image reference is found"⟩, v, cache, []⟩
  else
    let pubkeys := pubkeysOf v
    let stage :=
      if v.onMemoryCacheEnabled then verifyCacheLoop cache v.imageRef pubkeys 0 [] false
      else ⟨none, 0, [], false⟩
    match stage.early with
    | some o => ⟨o, v, cache, []⟩
    | none =>
      if v.onMemoryCacheEnabled ∧ stage.lastVerified = false ∧ stage.foundCount = pubkeys.length then
        ⟨⟨false, "", none,
          some ("signature verification failed: " ++ String.intercalate "; " stage.allErrs)⟩,
         v, cache, []⟩
      else
        let ls := verifyLiveLoop live v.onMemoryCacheEnabled v.imageRef pubkeys cache [] []
        ⟨ls.outcome, v, ls.cache, ls.invoked⟩

/-- The target object: its annotations as `GetAnnotationsInYAML` extracts
them, and its raw YAML bytes as handed to the manifest matcher. -/
structure TargetObj where
  annotations : List (String × String)
  raw : String
deriving DecidableEq, Repr

/-- External collaborators of the image manifest fetcher:
`getConcatYAMLFromImageRef` is the composition of `PullImage` and
`GenerateConcatYAMLsFromImage` (verify.go lines 364-374), `findManifestYAML`
is the external manifest matcher `k8smnfutil.FindManifestYAML`, and
`base64Decode` is `base64.StdEncoding.DecodeString`. -/
structure ImageFetchCollab where
  getConcatYAMLFromImageRef : String → Except String String
  findManifestYAML : String → String → Option Int → List String → Bool × List String
  base64Decode : String → Except String String

/-- The optional maximum-candidate pointer (verify.go lines 302-305 and
444-447 and 462-465): set only when the configured number is positive. -/
def maxNumPtr (n : Int) : Option Int :=
  if 0 < n then some n else none

/-- Cache key of the fetch-manifest operation (verify.go lines 377 and 404). -/
def fetchManifestCacheKey (imageRef : String) : String :=
  "cache/fetch-manifest/" ++ imageRef

/-- Error text for a fetch-manifest cache tuple of wrong arity (verify.go
line 385). -/
def cacheInconsistentFetchMsg (n : Nat) : String :=
  "cache returns inconsistent data: a length of fetch manifest result must be 2, but got " ++ toString n

/-- `ImageManifestFetcher.getManifestFromCache` (verify.go lines 376-401):
`(found, concatenated YAML, error)`. A missing key is a miss; a tuple whose
length is not 2 yields `found = false` together with the inconsistency
error; a first slot holding a string instead of bytes is base64-decoded,
keeping nil bytes when decoding fails. -/
def getManifestFromCache (base64Decode : String → Except String String)
    (cache : Cache) (imageRef : String) : Bool × String × Option String :=
  match cacheGet cache (fetchManifestCacheKey imageRef) with
  | none => (false, "", none)
  | some result =>
    if result.length = 2 then
      let concatYAML := match result.getD 0 CacheVal.nilV with
        | CacheVal.bytesV b => b
        | CacheVal.strV s =>
          (match base64Decode s with
           | Except.ok t => t
           | Except.error _ => "")
        | _ => ""
      let errMsg := match result.getD 1 CacheVal.nilV with
        | CacheVal.errV e => some e
        | _ => none
      (true, concatYAML, errMsg)
    else
      (false, "", some (cacheInconsistentFetchMsg result.length))

/-- `ImageManifestFetcher.setManifestToCache` (verify.go lines 403-409); a
`SetCache` failure is only logged, so the write is modelled as succeeding. -/
def setManifestToCache (cache : Cache) (imageRef : String) (concatYAML : String)
    (errMsg : Option String) : Cache :=
  cacheSet cache (fetchManifestCacheKey imageRef)
    [CacheVal.bytesV concatYAML,
     match errMsg with
     | some e => CacheVal.errV e
     | none => CacheVal.nilV]

/-- `ImageManifestFetcher.fetchManifestInSingleImage` (verify.go lines
321-346): consult the cache when enabled, fall back to the live pull on a
miss (writing a successful pull back to the cache), and wrap any error as
"failed to get YAMLs in the image". Returns the result and the cache after
the call. -/
def fetchManifestInSingleImage (col : ImageFetchCollab) (f : ImageManifestFetcher)
    (cache : Cache) (singleImageRef : String) : Except String String × Cache :=
  if f.cacheEnabled then
    let cr := getManifestFromCache col.base64Decode cache singleImageRef
    if cr.1 then
      match cr.2.2 with
      | some e => (Except.error ("failed to get YAMLs in the image: " ++ e), cache)
      | none => (Except.ok cr.2.1, cache)
    else
      match col.getConcatYAMLFromImageRef singleImageRef with
      | Except.ok y => (Except.ok y, setManifestToCache cache singleImageRef y none)
      | Except.error e => (Except.error ("failed to get YAMLs in the image: " ++ e), cache)
  else
    match col.getConcatYAMLFromImageRef singleImageRef with
    | Except.ok y => (Except.ok y, cache)
    | Except.error e => (Except.error ("failed to get YAMLs in the image: " ++ e), cache)

/-- The loop of `ImageManifestFetcher.Fetch` over the comma-separated image
references (verify.go lines 308-318): returns `((manifests, resolved
reference, error), cache after the call, references attempted in order)`. -/
def imageFetchLoop (col : ImageFetchCollab) (f : ImageManifestFetcher) (obj : TargetObj) :
    List String → Cache → List String →
    (Option (List String) × String × Option String) × Cache × List String
  | [], cache, attempted =>
    ((none, "", some "failed to find a YAML manifest in the image"), cache, attempted)
  | imageRef :: rest, cache, attempted =>
    let rc := fetchManifestInSingleImage col f cache imageRef
    match rc.1 with
    | Except.error e => ((none, "", some e), rc.2, attempted ++ [imageRef])
    | Except.ok concatYAML =>
      let fm := col.findManifestYAML concatYAML obj.raw (maxNumPtr f.maxResourceManifestNum) f.ignoreFields
      if fm.1 then ((some fm.2, imageRef, none), rc.2, attempted ++ [imageRef])
      else imageFetchLoop col f obj rest rc.2 (attempted ++ [imageRef])

/-- Everything a call of `ImageManifestFetcher.Fetch` produces or touches. -/
structure FetchRun where
  manifests : Option (List String)
  resolvedRef : String
  errMsg : Option String
  inst : ImageManifestFetcher
  cache : Cache
  attempted : List String
deriving DecidableEq, Repr

/-- `ImageManifestFetcher.Fetch` (verify.go lines 289-319): resolve the image
reference string (explicit, or the target object's image-ref annotation),
split it on commas, and try each reference in order. -/
def ImageManifestFetcher.Fetch (col : ImageFetchCollab) (f : ImageManifestFetcher)
    (cache : Cache) (obj : TargetObj) : FetchRun :=
  let imageRefString :=
    if f.imageRefString = "" then
      match mapLookup obj.annotations f.annotationConfig.imageRefKey with
      | some annoImageRef => annoImageRef
      | none => ""
    else f.imageRefString
  if imageRefString = "" then
    ⟨none, "", some "no image reference is found", f, cache, []⟩
  else
    let r := imageFetchLoop col f obj (SplitCommaSeparatedString imageRefString) cache []
    ⟨r.1.1, r.1.2.1, r.1.2.2, f, r.2.1, r.2.2⟩

/-- External collaborators of the blob manifest fetcher and blob signature
verifier: `getConfigMapData` is `GetConfigMapFromK8sObjectRef` (returning the
config object's data map and its name), the rest are the codec and matcher
helpers named in verify.go. -/
structure BlobFetchCollab where
  getConfigMapData : String → Except String (List (String × String) × String)
  base64Decode : String → Except String String
  gzipDecompress : String → String
  getYAMLsInArtifact : String → Except String (List String)
  concatenateYAMLs : List String → String
  findManifestYAML : String → String → Option Int → List String → Bool × List String

/-- `BlobManifestFetcher.fetchManifestInSingleConfigMap` (verify.go lines
481-503): fetch the referenced config object, require its message field,
base64-decode it, gzip-decompress it, extract the YAML documents from the
archive and concatenate them. -/
def fetchManifestInSingleConfigMap (col : BlobFetchCollab) (singleCMRef : String) :
    Except String String :=
  match col.getConfigMapData singleCMRef with
  | Except.error e => Except.error ("failed to get a configmap: " ++ e)
  | Except.ok dataAndName =>
    match mapLookup dataAndName.1 MessageAnnotationBaseName with
    | none =>
      Except.error ("failed to find `" ++ MessageAnnotationBaseName ++ "` in a configmap " ++ dataAndName.2)
    | some base64Msg =>
      match col.base64Decode base64Msg with
      | Except.error e => Except.error ("failed to decode base64 message in the configmap: " ++ e)
      | Except.ok gzipMsg =>
        let gzipTarBall := col.gzipDecompress gzipMsg
        match col.getYAMLsInArtifact gzipTarBall with
        | Except.error e => Except.error ("failed to read YAMLs in the gzipped message: " ++ e)
        | Except.ok yamls => Except.ok (col.concatenateYAMLs yamls)

/-- The loop of `BlobManifestFetcher.fetchManifestFromResource` over the
comma-separated resource references (verify.go lines 468-478): returns the
fetch result together with the references attempted in order. -/
def blobResourceLoop (col : BlobFetchCollab) (f : BlobManifestFetcher) (obj : TargetObj) :
    List String → List String →
    (Option (List String) × String × Option String) × List String
  | [], attempted =>
    ((none, "", some "failed to find a YAML manifest in the specified signature configmaps"), attempted)
  | resourceRef :: rest, attempted =>
    match fetchManifestInSingleConfigMap col resourceRef with
    | Except.error e => ((none, "", some e), attempted ++ [resourceRef])
    | Except.ok concatYAML =>
      let fm := col.findManifestYAML concatYAML obj.raw (maxNumPtr f.maxResourceManifestNum) f.ignoreFields
      if fm.1 then ((some fm.2, resourceRef, none), attempted ++ [resourceRef])
      else blobResourceLoop col f obj rest (attempted ++ [resourceRef])

/-- `BlobManifestFetcher.fetchManifestFromResource` (verify.go lines
456-479). -/
def BlobManifestFetcher.fetchManifestFromResource (col : BlobFetchCollab)
    (f : BlobManifestFetcher) (obj : TargetObj) :
    (Option (List String) × String × Option String) × List String :=
  if f.resourceRefString = "" then
    ((none, "", some "no signature resource reference is specified"), [])
  else
    blobResourceLoop col f obj (SplitCommaSeparatedString f.resourceRefString) []

/-- `BlobManifestFetcher.Fetch` (verify.go lines 418-454): delegate to the
resource path when a resource reference is configured; otherwise read the
message annotation from the target object — absence of that annotation
returns `(nil, "", nil)` — then decode, decompress, extract, concatenate and
match, resolving to the embedded sentinel on success. -/
def BlobManifestFetcher.Fetch (col : BlobFetchCollab) (f : BlobManifestFetcher)
    (obj : TargetObj) : Option (List String) × String × Option String :=
  if f.resourceRefString ≠ "" then
    (BlobManifestFetcher.fetchManifestFromResource col f obj).1
  else
    match mapLookup obj.annotations f.annotationConfig.messageKey with
    | none => (none, "", none)
    | some base64Msg =>
      match col.base64Decode base64Msg with
      | Except.error e => (none, "", some ("failed to decode base64 message in the annotation: " ++ e))
      | Except.ok gzipMsg =>
        let gzipTarBall := col.gzipDecompress gzipMsg
        match col.getYAMLsInArtifact gzipTarBall with
        | Except.error e => (none, "", some ("failed to read YAMLs in the gzipped message: " ++ e))
        | Except.ok yamls =>
          let concatYAML := col.concatenateYAMLs yamls
          let fm := col.findManifestYAML concatYAML obj.raw (maxNumPtr f.maxResourceManifestNum) f.ignoreFields
          if fm.1 then (some fm.2, SigRefEmbeddedInAnnotation, none)
          else (none, "", some "failed to find a YAML manifest in the gzipped message")

/-- The signature bundle `getSignatures` assembles (verify.go lines 210-260):
each field is present exactly when its source string is non-empty (a Go map
lookup of an absent key yields nil bytes). -/
structure SigMap where
  msg : Option String
  sig : Option String
  cert : Option String
  bundle : Option String
deriving DecidableEq, Repr

/-- A field enters the signature map only when non-empty (verify.go lines
247-258). -/
def emptyToNone (s : String) : Option String :=
  if s = "" then none else some s

/-- Assembly of the signature map from the four raw strings. -/
def mkSigMap (msg sig cert bundle : String) : SigMap :=
  ⟨emptyToNone msg, emptyToNone sig, emptyToNone cert, emptyToNone bundle⟩

/-- `BlobSignatureVerifier.getSignatures` (verify.go lines 210-260): read
message and signature (required — presence, not non-emptiness, is checked)
and certificate and bundle (optional) either from the referenced config
object's data map or from the target object's annotations. -/
def BlobSignatureVerifier.getSignatures
    (getConfigMapData : String → Except String (List (String × String) × String))
    (v : BlobSignatureVerifier) : Except String SigMap :=
  if v.resourceRef ≠ "" then
    match getConfigMapData v.resourceRef with
    | Except.error e => Except.error ("failed to get a configmap: " ++ e)
    | Except.ok dataAndName =>
      match mapLookup dataAndName.1 MessageAnnotationBaseName with
      | none =>
        Except.error ("`" ++ MessageAnnotationBaseName ++ "` is not found in the configmap " ++ v.resourceRef)
      | some msg =>
        match mapLookup dataAndName.1 SignatureAnnotationBaseName with
        | none =>
          Except.error ("`" ++ SignatureAnnotationBaseName ++ "` is not found in the configmap " ++ v.resourceRef)
        | some sig =>
          let cert := (mapLookup dataAndName.1 CertificateAnnotationBaseName).getD ""
          let bundle := (mapLookup dataAndName.1 BundleAnnotationBaseName).getD ""
          Except.ok (mkSigMap msg sig cert bundle)
  else
    match mapLookup v.annotations v.annotationConfig.messageKey with
    | none =>
      Except.error ("`" ++ v.annotationConfig.messageKey ++ "` is not found in the annotations")
    | some msg =>
      match mapLookup v.annotations v.annotationConfig.signatureKey with
      | none =>
        Except.error ("`" ++ v.annotationConfig.signatureKey ++ "` is not found in the annotations")
      | some sig =>
        let cert := (mapLookup v.annotations v.annotationConfig.certificateKey).getD ""
        let bundle := (mapLookup v.annotations v.annotationConfig.bundleKey).getD ""
        Except.ok (mkSigMap msg sig cert bundle)

/-- The signature-scheme classification returned by the external
`sigtypes.GetSignatureTypeFromPublicKey`. -/
inductive SigType where
  | unknown : SigType
  | cosign : SigType
  | pgp : SigType
  | x509 : SigType
deriving DecidableEq, Repr

/-- What `BlobSignatureVerifier.Verify` does, with the call to the external
per-scheme dispatcher reified: each `…Call` constructor records the exact
arguments handed to `k8smnfcosign.VerifyBlob`, `pgp.VerifyBlob` or
`x509.VerifyBlob` (nil byte slices as `none`). -/
inductive BlobDispatch where
  | fail : String → BlobDispatch
  | cosignCall : Option String → Option String → Option String → Option String → Option String → BlobDispatch
  | pgpCall : Option String → Option String → Option String → BlobDispatch
  | x509Call : Option String → Option String → Option String → Option String → BlobDispatch
deriving DecidableEq, Repr

/-- `BlobSignatureVerifier.Verify` (verify.go lines 185-208): assemble the
signature map, classify the scheme from the key-path configuration, and
dispatch; an unknown classification fails, and the final fallback mirrors
the defensive "unknown error" return. -/
def BlobSignatureVerifier.Verify
    (getConfigMapData : String → Except String (List (String × String) × String))
    (sigTypeOf : Option String → SigType)
    (v : BlobSignatureVerifier) : BlobDispatch :=
  match BlobSignatureVerifier.getSignatures getConfigMapData v with
  | Except.error e => BlobDispatch.fail ("failed to get signature: " ++ e)
  | Except.ok m =>
    let sigType := sigTypeOf v.pubkeyPathString
    if sigType = SigType.unknown then
      BlobDispatch.fail "failed to judge signature type from public key configuration"
    else if sigType = SigType.cosign then
      BlobDispatch.cosignCall m.msg m.sig m.cert m.bundle v.pubkeyPathString
    else if sigType = SigType.pgp then
      BlobDispatch.pgpCall m.msg m.sig v.pubkeyPathString
    else if sigType = SigType.x509 then
      BlobDispatch.x509Call m.msg m.sig m.cert v.pubkeyPathString
    else
      BlobDispatch.fail "unknown error"

/-- Whether the cache-consultation stage finds an entry for a key. -/
def cacheHit (cache : Cache) (imageRef pubkey : String) : Bool :=
  (getResultFromCache cache imageRef pubkey).1

/-- Whether the cache-consultation stage finds a verified entry for a key. -/
def cacheHitVerified (cache : Cache) (imageRef pubkey : String) : Bool :=
  (getResultFromCache cache imageRef pubkey).1 && (getResultFromCache cache imageRef pubkey).2.verified

/-- The cached error messages of a key list, in key order. -/
def cachedErrsOf (cache : Cache) (imageRef : String) (pubkeys : List String) : List String :=
  pubkeys.filterMap (fun pk => (getResultFromCache cache imageRef pk).2.errMsg)

/-- The keys the live loop dispatches on, in order: every key up to and
including the first one the live verifier accepts (all of them when none is
accepted). This depends only on the live verifier, never on the cache. -/
def liveUpToFirstSuccess (live : String → String → VerifyOutcome) (imageRef : String) :
    List String → List String
  | [] => []
  | pk :: rest =>
    if (live imageRef pk).verified then [pk]
    else pk :: liveUpToFirstSuccess live imageRef rest

/-- The first key the live verifier accepts, if any. -/
def firstLiveSuccess (live : String → String → VerifyOutcome) (imageRef : String) :
    List String → Option String
  | [] => none
  | pk :: rest =>
    if (live imageRef pk).verified then some pk else firstLiveSuccess live imageRef rest

/-- The live failure messages collected before the first success (all of
them when none succeeds). -/
def liveErrsUntil (live : String → String → VerifyOutcome) (imageRef : String) :
    List String → List String
  | [] => []
  | pk :: rest =>
    if (live imageRef pk).verified then []
    else
      match (live imageRef pk).errMsg with
      | some e => e :: liveErrsUntil live imageRef rest
      | none => liveErrsUntil live imageRef rest

/-- The cache writes the live loop performs, oldest first. -/
def liveCacheWrites (live : String → String → VerifyOutcome) (imageRef : String)
    (pks : List String) (cache : Cache) : Cache :=
  pks.foldl (fun c pk => setResultToCache c imageRef pk (live imageRef pk)) cache

/-! Helper lemmas about the embedded loops, shared by the claim theorems. -/

theorem string_append_left_cancel {a b c : String} (h : a ++ b = a ++ c) : b = c := by
  have h1 : (a ++ b).data = (a ++ c).data := congrArg String.data h
  have h2 : a.data ++ b.data = a.data ++ c.data := by
    simpa [String.data_append] using h1
  exact String.ext (List.append_cancel_left h2)

theorem verifyImageCacheKey_inj {imageRef p q : String}
    (h : verifyImageCacheKey imageRef p = verifyImageCacheKey imageRef q) : p = q := by
  unfold verifyImageCacheKey at h
  exact string_append_left_cancel h

theorem cacheGet_cacheSet_self (c : Cache) (k : String) (vs : List CacheVal) :
    cacheGet (cacheSet c k vs) k = some vs := by
  simp [cacheGet, cacheSet, List.find?]

theorem cacheGet_cacheSet_ne (c : Cache) {k k' : String} (vs : List CacheVal)
    (h : k ≠ k') : cacheGet (cacheSet c k vs) k' = cacheGet c k' := by
  have hb : (k == k') = false := by
    simpa using h
  simp [cacheGet, cacheSet, List.find?, hb]

theorem cacheGet_nil (k : String) : cacheGet [] k = none := rfl

theorem getResultFromCache_nil_cache (imageRef pubkey : String) :
    getResultFromCache [] imageRef pubkey = (false, ⟨false, "", none, none⟩) := rfl

theorem getResultFromCache_verified_of_not_found {cache : Cache} {imageRef pubkey : String}
    (h : (getResultFromCache cache imageRef pubkey).1 = false) :
    (getResultFromCache cache imageRef pubkey).2.verified = false := by
  unfold getResultFromCache at *
  cases hg : cacheGet cache (verifyImageCacheKey imageRef pubkey) with
  | none => simp [hg]
  | some result =>
    by_cases hl : result.length = 4
    · simp [hg, hl] at h
    · simp [hg, hl]

theorem splitCommaAux_foldr_ne_nil (l : List Char) : l.foldr splitCommaAux [[]] ≠ [] := by
  induction l with
  | nil => simp
  | cons c rest ih =>
    simp only [List.foldr_cons]
    cases h : rest.foldr splitCommaAux [[]] with
    | nil => exact absurd h ih
    | cons a t =>
      by_cases hc : c = ','
      · simp [splitCommaAux, hc]
      · simp [splitCommaAux, hc]

theorem SplitCommaSeparatedString_ne_nil (s : String) : SplitCommaSeparatedString s ≠ [] := by
  unfold SplitCommaSeparatedString
  intro h
  exact splitCommaAux_foldr_ne_nil s.data (List.map_eq_nil_iff.mp h)

theorem pubkeysOf_ne_nil (v : ImageSignatureVerifier) : pubkeysOf v ≠ [] := by
  unfold pubkeysOf
  cases h : v.pubkeyPathString with
  | none => simp
  | some p =>
    by_cases hp : p = ""
    · simp [hp]
    · simpa [hp] using SplitCommaSeparatedString_ne_nil p

theorem verifyCacheLoop_nil_cache (imageRef : String) (pks : List String) :
    ∀ count errs,
      verifyCacheLoop [] imageRef pks count errs false = ⟨none, count, errs, false⟩ := by
  induction pks with
  | nil => intro count errs; rfl
  | cons pk rest ih =>
    intro count errs
    simpa [verifyCacheLoop, getResultFromCache_nil_cache] using ih count errs

theorem verifyLiveLoop_invoked (live : String → String → VerifyOutcome) (en : Bool)
    (imageRef : String) (pks : List String) :
    ∀ cache errs invoked,
      (verifyLiveLoop live en imageRef pks cache errs invoked).invoked
        = invoked ++ liveUpToFirstSuccess live imageRef pks := by
  induction pks with
  | nil => intro cache errs invoked; simp [verifyLiveLoop, liveUpToFirstSuccess]
  | cons pk rest ih =>
    intro cache errs invoked
    by_cases h : (live imageRef pk).verified
    · simp [verifyLiveLoop, liveUpToFirstSuccess, h]
    · cases herr : (live imageRef pk).errMsg with
      | none => simp [verifyLiveLoop, liveUpToFirstSuccess, h, herr, ih]
      | some e => simp [verifyLiveLoop, liveUpToFirstSuccess, h, herr, ih]

theorem verifyLiveLoop_outcome_success (live : String → String → VerifyOutcome) (en : Bool)
    (imageRef : String) (pks : List String) :
    ∀ pk, firstLiveSuccess live imageRef pks = some pk →
      ∀ cache errs invoked,
        (verifyLiveLoop live en imageRef pks cache errs invoked).outcome = live imageRef pk := by
  induction pks with
  | nil => intro pk h; simp [firstLiveSuccess] at h
  | cons q rest ih =>
    intro pk h cache errs invoked
    by_cases hq : (live imageRef q).verified
    · simp only [firstLiveSuccess, hq, if_true, Option.some.injEq] at h
      subst h
      simp [verifyLiveLoop, hq]
    · simp only [firstLiveSuccess, hq, if_false] at h
      cases herr : (live imageRef q).errMsg with
      | none => simpa [verifyLiveLoop, hq, herr] using ih pk h _ _ _
      | some e => simpa [verifyLiveLoop, hq, herr] using ih pk h _ _ _

theorem verifyLiveLoop_outcome_failure (live : String → String → VerifyOutcome) (en : Bool)
    (imageRef : String) (pks : List String) :
    (∀ q ∈ pks, (live imageRef q).verified = false) →
      ∀ cache errs invoked,
        (verifyLiveLoop live en imageRef pks cache errs invoked).outcome
          = ⟨false, "", none,
             some ("signature verification failed: "
               ++ String.intercalate "; " (errs ++ liveErrsUntil live imageRef pks))⟩ := by
  induction pks with
  | nil => intro _ cache errs invoked; simp [verifyLiveLoop, liveErrsUntil]
  | cons q rest ih =>
    intro hall cache errs invoked
    have hq : (live imageRef q).verified = false := hall q (by simp)
    have hrest : ∀ r ∈ rest, (live imageRef r).verified = false := by
      intro r hr; exact hall r (by simp [hr])
    cases herr : (live imageRef q).errMsg with
    | none => simp [verifyLiveLoop, hq, herr, liveErrsUntil, ih hrest]
    | some e =>
      simp only [verifyLiveLoop, hq, herr, Bool.false_eq_true, if_false]
      rw [ih hrest]
      simp [liveErrsUntil, hq, herr]

theorem verifyLiveLoop_cache_enabled (live : String → String → VerifyOutcome)
    (imageRef : String) (pks : List String) :
    ∀ cache errs invoked,
      (verifyLiveLoop live true imageRef pks cache errs invoked).cache
        = liveCacheWrites live imageRef (liveUpToFirstSuccess live imageRef pks) cache := by
  induction pks with
  | nil => intro cache errs invoked; simp [verifyLiveLoop, liveUpToFirstSuccess, liveCacheWrites]
  | cons pk rest ih =>
    intro cache errs invoked
    by_cases h : (live imageRef pk).verified
    · simp [verifyLiveLoop, liveUpToFirstSuccess, h, liveCacheWrites]
    · cases herr : (live imageRef pk).errMsg with
      | none => simp [verifyLiveLoop, liveUpToFirstSuccess, h, herr, ih, liveCacheWrites]
      | some e => simp [verifyLiveLoop, liveUpToFirstSuccess, h, herr, ih, liveCacheWrites]

theorem verifyLiveLoop_cache_disabled (live : String → String → VerifyOutcome)
    (imageRef : String) (pks : List String) :
    ∀ cache errs invoked,
      (verifyLiveLoop live false imageRef pks cache errs invoked).cache = cache := by
  induction pks with
  | nil => intro cache errs invoked; simp [verifyLiveLoop]
  | cons pk rest ih =>
    intro cache errs invoked
    by_cases h : (live imageRef pk).verified
    · simp [verifyLiveLoop, h]
    · cases herr : (live imageRef pk).errMsg with
      | none => simp [verifyLiveLoop, h, herr, ih]
      | some e => simp [verifyLiveLoop, h, herr, ih]

theorem cacheGet_liveCacheWrites_not_mem (live : String → String → VerifyOutcome)
    (imageRef : String) (ws : List String) :
    ∀ cache pk, pk ∉ ws →
      cacheGet (liveCacheWrites live imageRef ws cache) (verifyImageCacheKey imageRef pk)
        = cacheGet cache (verifyImageCacheKey imageRef pk) := by
  induction ws with
  | nil => intro cache pk _; simp [liveCacheWrites]
  | cons w rest ih =>
    intro cache pk hpk
    have hne : pk ≠ w := fun h => hpk (by simp [h])
    have hkey : verifyImageCacheKey imageRef w ≠ verifyImageCacheKey imageRef pk :=
      fun h => hne (verifyImageCacheKey_inj h).symm
    have hrest : pk ∉ rest := fun h => hpk (by simp [h])
    calc cacheGet (liveCacheWrites live imageRef (w :: rest) cache) (verifyImageCacheKey imageRef pk)
        = cacheGet (liveCacheWrites live imageRef rest
            (setResultToCache cache imageRef w (live imageRef w))) (verifyImageCacheKey imageRef pk) := by
          simp [liveCacheWrites]
      _ = cacheGet (setResultToCache cache imageRef w (live imageRef w)) (verifyImageCacheKey imageRef pk) :=
          ih _ pk hrest
      _ = cacheGet cache (verifyImageCacheKey imageRef pk) := by
          simpa [setResultToCache] using
            cacheGet_cacheSet_ne cache (encodeVerifyOutcome (live imageRef w)) hkey

theorem cacheGet_liveCacheWrites_mem (live : String → String → VerifyOutcome)
    (imageRef : String) (ws : List String) :
    ∀ cache pk, pk ∈ ws →
      cacheGet (liveCacheWrites live imageRef ws cache) (verifyImageCacheKey imageRef pk)
        = some (encodeVerifyOutcome (live imageRef pk)) := by
  induction ws with
  | nil => intro cache pk h; simp at h
  | cons w rest ih =>
    intro cache pk hpk
    by_cases hrest : pk ∈ rest
    · simpa [liveCacheWrites] using ih (setResultToCache cache imageRef w (live imageRef w)) pk hrest
    · have hpw : pk = w := by
        rcases List.mem_cons.mp hpk with h | h
        · exact h
        · exact absurd h hrest
      subst hpw
      have step : liveCacheWrites live imageRef (pk :: rest) cache
          = liveCacheWrites live imageRef rest (setResultToCache cache imageRef pk (live imageRef pk)) := by
        simp [liveCacheWrites]
      rw [step, cacheGet_liveCacheWrites_not_mem live imageRef rest _ pk hrest]
      simpa [setResultToCache] using
        cacheGet_cacheSet_self cache (verifyImageCacheKey imageRef pk) (encodeVerifyOutcome (live imageRef pk))

theorem verifyCacheLoop_early_of_hitVerified (cache : Cache) (imageRef : String)
    (pre : List String) :
    ∀ pk post, (∀ q ∈ pre, cacheHitVerified cache imageRef q = false) →
      cacheHitVerified cache imageRef pk = true →
      ∀ count errs lv,
        (verifyCacheLoop cache imageRef (pre ++ pk :: post) count errs lv).early
          = some (getResultFromCache cache imageRef pk).2 := by
  induction pre with
  | nil =>
    intro pk post _ hpk count errs lv
    simp only [cacheHitVerified, Bool.and_eq_true] at hpk
    simp [verifyCacheLoop, hpk.1, hpk.2]
  | cons q pre' ih =>
    intro pk post hpre hpk count errs lv
    have hq : cacheHitVerified cache imageRef q = false := hpre q (by simp)
    have hq' : ¬((getResultFromCache cache imageRef q).1 = true ∧
        (getResultFromCache cache imageRef q).2.verified = true) := by
      intro hc
      unfold cacheHitVerified at hq
      rw [hc.1, hc.2] at hq
      simp at hq
    have hpre' : ∀ r ∈ pre', cacheHitVerified cache imageRef r = false := by
      intro r hr; exact hpre r (by simp [hr])
    cases herr : (getResultFromCache cache imageRef q).2.errMsg with
    | none =>
      simpa [verifyCacheLoop, hq', herr] using ih pk post hpre' hpk _ _ _
    | some e =>
      simpa [verifyCacheLoop, hq', herr] using ih pk post hpre' hpk _ _ _

theorem verifyCacheLoop_no_hitVerified (cache : Cache) (imageRef : String)
    (pks : List String) :
    (∀ q ∈ pks, cacheHitVerified cache imageRef q = false) →
      ∀ count errs,
        verifyCacheLoop cache imageRef pks count errs false
          = ⟨none, count + pks.countP (fun q => cacheHit cache imageRef q),
             errs ++ cachedErrsOf cache imageRef pks, false⟩ := by
  induction pks with
  | nil => intro _ count errs; simp [verifyCacheLoop, cachedErrsOf]
  | cons q rest ih =>
    intro hall count errs
    have hq : cacheHitVerified cache imageRef q = false := hall q (by simp)
    have hrest : ∀ r ∈ rest, cacheHitVerified cache imageRef r = false := by
      intro r hr; exact hall r (by simp [hr])
    have hqv : (getResultFromCache cache imageRef q).2.verified = false := by
      cases hf : (getResultFromCache cache imageRef q).1 with
      | false => exact getResultFromCache_verified_of_not_found hf
      | true =>
        unfold cacheHitVerified at hq
        rw [hf] at hq
        simpa using hq
    cases hf : (getResultFromCache cache imageRef q).1 with
    | true =>
      have harith : count + 1 + List.countP (fun r => cacheHit cache imageRef r) rest
          = count + (List.countP (fun r => cacheHit cache imageRef r) rest + 1) := by omega
      have hc : List.countP (fun r => cacheHit cache imageRef r) (q :: rest)
          = List.countP (fun r => cacheHit cache imageRef r) rest + 1 := by
        simp [List.countP_cons, cacheHit, hf]
      cases herr : (getResultFromCache cache imageRef q).2.errMsg with
      | none =>
        have hstep : verifyCacheLoop cache imageRef (q :: rest) count errs false
            = verifyCacheLoop cache imageRef rest (count + 1) errs false := by
          simp [verifyCacheLoop, hf, hqv, herr]
        have he : cachedErrsOf cache imageRef (q :: rest) = cachedErrsOf cache imageRef rest := by
          simp [cachedErrsOf, herr]
        rw [hstep, ih hrest, hc, he, harith]
      | some e =>
        have hstep : verifyCacheLoop cache imageRef (q :: rest) count errs false
            = verifyCacheLoop cache imageRef rest (count + 1) (errs ++ [e]) false := by
          simp [verifyCacheLoop, hf, hqv, herr]
        have he : cachedErrsOf cache imageRef (q :: rest) = e :: cachedErrsOf cache imageRef rest := by
          simp [cachedErrsOf, herr]
        rw [hstep, ih hrest, hc, he, harith]
        simp
    | false =>
      have hc : List.countP (fun r => cacheHit cache imageRef r) (q :: rest)
          = List.countP (fun r => cacheHit cache imageRef r) rest := by
        simp [List.countP_cons, cacheHit, hf]
      cases herr : (getResultFromCache cache imageRef q).2.errMsg with
      | none =>
        have hstep : verifyCacheLoop cache imageRef (q :: rest) count errs false
            = verifyCacheLoop cache imageRef rest count errs false := by
          simp [verifyCacheLoop, hf, hqv, herr]
        have he : cachedErrsOf cache imageRef (q :: rest) = cachedErrsOf cache imageRef rest := by
          simp [cachedErrsOf, herr]
        rw [hstep, ih hrest, hc, he]
      | some e =>
        have hstep : verifyCacheLoop cache imageRef (q :: rest) count errs false
            = verifyCacheLoop cache imageRef rest count (errs ++ [e]) false := by
          simp [verifyCacheLoop, hf, hqv, herr]
        have he : cachedErrsOf cache imageRef (q :: rest) = e :: cachedErrsOf cache imageRef rest := by
          simp [cachedErrsOf, herr]
        rw [hstep, ih hrest, hc, he]
        simp

theorem firstLiveSuccess_append (live : String → String → VerifyOutcome) (imageRef : String)
    (pre : List String) :
    ∀ pk post, (∀ q ∈ pre, (live imageRef q).verified = false) →
      (live imageRef pk).verified = true →
      firstLiveSuccess live imageRef (pre ++ pk :: post) = some pk := by
  induction pre with
  | nil => intro pk post _ hpk; simp [firstLiveSuccess, hpk]
  | cons q pre' ih =>
    intro pk post hpre hpk
    have hq : (live imageRef q).verified = false := hpre q (by simp)
    simp [firstLiveSuccess, hq, ih pk post (fun r hr => hpre r (by simp [hr])) hpk]

theorem liveUpToFirstSuccess_append (live : String → String → VerifyOutcome) (imageRef : String)
    (pre : List String) :
    ∀ pk post, (∀ q ∈ pre, (live imageRef q).verified = false) →
      (live imageRef pk).verified = true →
      liveUpToFirstSuccess live imageRef (pre ++ pk :: post) = pre ++ [pk] := by
  induction pre with
  | nil => intro pk post _ hpk; simp [liveUpToFirstSuccess, hpk]
  | cons q pre' ih =>
    intro pk post hpre hpk
    have hq : (live imageRef q).verified = false := hpre q (by simp)
    simp [liveUpToFirstSuccess, hq, ih pk post (fun r hr => hpre r (by simp [hr])) hpk]

theorem liveUpToFirstSuccess_all_fail (live : String → String → VerifyOutcome) (imageRef : String)
    (pks : List String) :
    (∀ q ∈ pks, (live imageRef q).verified = false) →
      liveUpToFirstSuccess live imageRef pks = pks := by
  induction pks with
  | nil => intro _; rfl
  | cons q rest ih =>
    intro hall
    have hq : (live imageRef q).verified = false := hall q (by simp)
    simp [liveUpToFirstSuccess, hq, ih (fun r hr => hall r (by simp [hr]))]

theorem liveErrsUntil_all_fail (live : String → String → VerifyOutcome) (imageRef : String)
    (reason : String → String) (pks : List String) :
    (∀ q ∈ pks, (live imageRef q).verified = false ∧ (live imageRef q).errMsg = some (reason q)) →
      liveErrsUntil live imageRef pks = pks.map reason := by
  induction pks with
  | nil => intro _; rfl
  | cons q rest ih =>
    intro hall
    have hq := hall q (by simp)
    simp [liveErrsUntil, hq.1, hq.2, ih (fun r hr => hall r (by simp [hr]))]

theorem Verify_nil_cache (live : String → String → VerifyOutcome) (v : ImageSignatureVerifier)
    (him : v.imageRef ≠ "") :
    ImageSignatureVerifier.Verify live v []
      = ⟨(verifyLiveLoop live v.onMemoryCacheEnabled v.imageRef (pubkeysOf v) [] [] []).outcome, v,
         (verifyLiveLoop live v.onMemoryCacheEnabled v.imageRef (pubkeysOf v) [] [] []).cache,
         (verifyLiveLoop live v.onMemoryCacheEnabled v.imageRef (pubkeysOf v) [] [] []).invoked⟩ := by
  have hlen : ¬(0 = (pubkeysOf v).length) := by
    intro h
    exact pubkeysOf_ne_nil v (List.length_eq_zero.mp h.symm)
  cases hen : v.onMemoryCacheEnabled with
  | true =>
    simp [ImageSignatureVerifier.Verify, him, hen, verifyCacheLoop_nil_cache, hlen]
  | false =>
    simp [ImageSignatureVerifier.Verify, him, hen]

theorem Verify_enabled_unfold (live : String → String → VerifyOutcome)
    (v : ImageSignatureVerifier) (cache : Cache)
    (him : v.imageRef ≠ "") (hen : v.onMemoryCacheEnabled = true) :
    ImageSignatureVerifier.Verify live v cache
      = (match (verifyCacheLoop cache v.imageRef (pubkeysOf v) 0 [] false).early with
         | some o => (⟨o, v, cache, []⟩ : VerifyRun)
         | none =>
           if (verifyCacheLoop cache v.imageRef (pubkeysOf v) 0 [] false).lastVerified = false
               ∧ (verifyCacheLoop cache v.imageRef (pubkeysOf v) 0 [] false).foundCount
                 = (pubkeysOf v).length then
             ⟨⟨false, "", none,
               some ("signature verification failed: " ++ String.intercalate "; "
                 (verifyCacheLoop cache v.imageRef (pubkeysOf v) 0 [] false).allErrs)⟩,
              v, cache, []⟩
           else
             ⟨(verifyLiveLoop live true v.imageRef (pubkeysOf v) cache [] []).outcome, v,
              (verifyLiveLoop live true v.imageRef (pubkeysOf v) cache [] []).cache,
              (verifyLiveLoop live true v.imageRef (pubkeysOf v) cache [] []).invoked⟩) := by
  simp [ImageSignatureVerifier.Verify, him, hen]

/-- C4 (confirmed): for every non-empty key list with caching enabled,
`ImageSignatureVerifier.Verify` behaves in three regimes: (a) the first key
whose cache entry is a hit with `verified = true` makes `Verify` return that
cached outcome immediately, with no live verification and no cache write;
(b) when every key is a cache hit and none is verified, `Verify` returns
failure aggregated from the cached error messages, without invoking live
verification; (c) when no key has a verified cache hit and at least one key
is a cache miss, `Verify` runs live verification for every key in order up
to and including the first live success — not skipping keys whose cache
entry was a hit, since the dispatched key list `liveUpToFirstSuccess`
depends only on the live verifier, never on the cache — and writes each
dispatched key's live outcome back to the cache. -/
theorem C4_cache_dispatch (live : String → String → VerifyOutcome)
    (v : ImageSignatureVerifier) (cache : Cache)
    (him : v.imageRef ≠ "") (hen : v.onMemoryCacheEnabled = true) :
    (∀ pre pk post, pubkeysOf v = pre ++ pk :: post →
      (∀ q ∈ pre, cacheHitVerified cache v.imageRef q = false) →
      cacheHitVerified cache v.imageRef pk = true →
      ImageSignatureVerifier.Verify live v cache
        = ⟨(getResultFromCache cache v.imageRef pk).2, v, cache, []⟩)
    ∧
    ((∀ q ∈ pubkeysOf v, cacheHit cache v.imageRef q = true
        ∧ cacheHitVerified cache v.imageRef q = false) →
      ImageSignatureVerifier.Verify live v cache
        = ⟨⟨false, "", none,
            some ("signature verification failed: " ++ String.intercalate "; "
              (cachedErrsOf cache v.imageRef (pubkeysOf v)))⟩, v, cache, []⟩)
    ∧
    (∀ pk₀ ∈ pubkeysOf v, cacheHit cache v.imageRef pk₀ = false →
      (∀ q ∈ pubkeysOf v, cacheHitVerified cache v.imageRef q = false) →
      (ImageSignatureVerifier.Verify live v cache).liveInvoked
          = liveUpToFirstSuccess live v.imageRef (pubkeysOf v)
        ∧ (ImageSignatureVerifier.Verify live v cache).cache
          = liveCacheWrites live v.imageRef (liveUpToFirstSuccess live v.imageRef (pubkeysOf v)) cache
        ∧ ∀ pk ∈ liveUpToFirstSuccess live v.imageRef (pubkeysOf v),
            cacheGet (ImageSignatureVerifier.Verify live v cache).cache
                (verifyImageCacheKey v.imageRef pk)
              = some (encodeVerifyOutcome (live v.imageRef pk))) := by
  refine ⟨?_, ?_, ?_⟩
  · intro pre pk post hsplit hpre hpk
    rw [Verify_enabled_unfold live v cache him hen, hsplit,
        verifyCacheLoop_early_of_hitVerified cache v.imageRef pre pk post hpre hpk 0 [] false]
  · intro hall
    have hnv : ∀ q ∈ pubkeysOf v, cacheHitVerified cache v.imageRef q = false :=
      fun q hq => (hall q hq).2
    have hcount : (pubkeysOf v).countP (fun q => cacheHit cache v.imageRef q)
        = (pubkeysOf v).length :=
      List.countP_eq_length.mpr (fun q hq => by simpa using (hall q hq).1)
    rw [Verify_enabled_unfold live v cache him hen,
        verifyCacheLoop_no_hitVerified cache v.imageRef (pubkeysOf v) hnv 0 []]
    simp [hcount]
  · intro pk₀ hpk₀ hmiss hnv
    have hcount : ¬((pubkeysOf v).countP (fun q => cacheHit cache v.imageRef q)
        = (pubkeysOf v).length) := by
      intro h
      have hq := List.countP_eq_length.mp h pk₀ hpk₀
      simp only [hmiss] at hq
      exact absurd hq (by simp)
    have hV : ImageSignatureVerifier.Verify live v cache
        = ⟨(verifyLiveLoop live true v.imageRef (pubkeysOf v) cache [] []).outcome, v,
           (verifyLiveLoop live true v.imageRef (pubkeysOf v) cache [] []).cache,
           (verifyLiveLoop live true v.imageRef (pubkeysOf v) cache [] []).invoked⟩ := by
      rw [Verify_enabled_unfold live v cache him hen,
          verifyCacheLoop_no_hitVerified cache v.imageRef (pubkeysOf v) hnv 0 []]
      simp [hcount]
    refine ⟨?_, ?_, ?_⟩
    · rw [hV]
      simpa using verifyLiveLoop_invoked live true v.imageRef (pubkeysOf v) cache [] []
    · rw [hV]
      simpa using verifyLiveLoop_cache_enabled live v.imageRef (pubkeysOf v) cache [] []
    · intro pk hpk
      rw [hV]
      have hc := verifyLiveLoop_cache_enabled live v.imageRef (pubkeysOf v) cache [] []
      simp only [hc]
      exact cacheGet_liveCacheWrites_mem live v.imageRef _ cache pk hpk

/-- C4 witness: a two-key verifier whose second key has a verified cache
entry while the first key's cached attempt failed; `Verify` returns the
cached outcome of the second key, touches nothing, and invokes no live
verification. -/
theorem C4_witness :
    cacheHitVerified
        [(verifyImageCacheKey "img" "k1", encodeVerifyOutcome ⟨false, "", none, some "k1 cached fail"⟩),
         (verifyImageCacheKey "img" "k2", encodeVerifyOutcome ⟨true, "cachedSigner", some 5, none⟩)]
        "img" "k2" = true
    ∧ ImageSignatureVerifier.Verify (fun _ _ => ⟨false, "", none, none⟩)
        ⟨"img", some "k1,k2", true, ⟨"a", "b", "c", "d", "e"⟩⟩
        [(verifyImageCacheKey "img" "k1", encodeVerifyOutcome ⟨false, "", none, some "k1 cached fail"⟩),
         (verifyImageCacheKey "img" "k2", encodeVerifyOutcome ⟨true, "cachedSigner", some 5, none⟩)]
      = ⟨(getResultFromCache
            [(verifyImageCacheKey "img" "k1", encodeVerifyOutcome ⟨false, "", none, some "k1 cached fail"⟩),
             (verifyImageCacheKey "img" "k2", encodeVerifyOutcome ⟨true, "cachedSigner", some 5, none⟩)]
            "img" "k2").2,
         ⟨"img", some "k1,k2", true, ⟨"a", "b", "c", "d", "e"⟩⟩,
         [(verifyImageCacheKey "img" "k1", encodeVerifyOutcome ⟨false, "", none, some "k1 cached fail"⟩),
          (verifyImageCacheKey "img" "k2", encodeVerifyOutcome ⟨true, "cachedSigner", some 5, none⟩)],
         []⟩ := by
  constructor
  · decide
  · exact (C4_cache_dispatch _ _ _ (by decide) rfl).1 ["k1"] "k2" [] (by decide) (by decide)
      (by decide)

/-- C5 (corrected, amended): when every key of a non-empty key list fails
live verification with an error, `Verify` returns an error whose text is the
fixed label "signature verification failed: " followed by the semicolon-
joined per-key failure reasons in key order — not the bare join the claim
states. Stated over an empty starting cache, which covers both the
cache-enabled path (all keys miss, so live verification runs) and the
cache-disabled path. -/
theorem C5_all_keys_fail_aggregate (live : String → String → VerifyOutcome)
    (v : ImageSignatureVerifier) (reason : String → String)
    (him : v.imageRef ≠ "")
    (hall : ∀ pk ∈ pubkeysOf v,
      (live v.imageRef pk).verified = false ∧ (live v.imageRef pk).errMsg = some (reason pk)) :
    (ImageSignatureVerifier.Verify live v []).outcome
      = ⟨false, "", none,
         some ("signature verification failed: "
           ++ String.intercalate "; " ((pubkeysOf v).map reason))⟩ := by
  rw [Verify_nil_cache live v him]
  have hfail : ∀ q ∈ pubkeysOf v, (live v.imageRef q).verified = false :=
    fun q hq => (hall q hq).1
  have h := verifyLiveLoop_outcome_failure live v.onMemoryCacheEnabled v.imageRef (pubkeysOf v)
    hfail [] [] []
  rw [show (⟨(verifyLiveLoop live v.onMemoryCacheEnabled v.imageRef (pubkeysOf v) [] [] []).outcome, v,
      (verifyLiveLoop live v.onMemoryCacheEnabled v.imageRef (pubkeysOf v) [] [] []).cache,
      (verifyLiveLoop live v.onMemoryCacheEnabled v.imageRef (pubkeysOf v) [] [] []).invoked⟩ : VerifyRun).outcome
      = (verifyLiveLoop live v.onMemoryCacheEnabled v.imageRef (pubkeysOf v) [] [] []).outcome from rfl,
    h, liveErrsUntil_all_fail live v.imageRef reason (pubkeysOf v) hall]
  simp

/-- C5 counterexample: with keys `k1,k2` both failing live verification, the
returned error text is not the bare semicolon join of the two failure
reasons — it carries the "signature verification failed: " label in front. -/
theorem C5_counterexample :
    (ImageSignatureVerifier.Verify
        (fun _ k => ⟨false, "", none, some (if k = "k1" then "k1 failed" else "k2 failed")⟩)
        ⟨"img", some "k1,k2", true, ⟨"a", "b", "c", "d", "e"⟩⟩ []).outcome.errMsg
      ≠ some "k1 failed; k2 failed"
    ∧ (ImageSignatureVerifier.Verify
        (fun _ k => ⟨false, "", none, some (if k = "k1" then "k1 failed" else "k2 failed")⟩)
        ⟨"img", some "k1,k2", true, ⟨"a", "b", "c", "d", "e"⟩⟩ []).outcome.errMsg
      = some "signature verification failed: k1 failed; k2 failed" := by
  constructor
  · decide
  · decide

/-- C5 witness: the amended aggregate-error shape at a concrete two-key
verifier. -/
theorem C5_witness :
    (ImageSignatureVerifier.Verify
        (fun _ k => ⟨false, "", none, some (k ++ " live fail")⟩)
        ⟨"image:tag", some "p1,p2", true, ⟨"a", "b", "c", "d", "e"⟩⟩ []).outcome
      = ⟨false, "", none, some "signature verification failed: p1 live fail; p2 live fail"⟩ := by
  have h := C5_all_keys_fail_aggregate
    (fun _ k => ⟨false, "", none, some (k ++ " live fail")⟩)
    ⟨"image:tag", some "p1,p2", true, ⟨"a", "b", "c", "d", "e"⟩⟩
    (fun k => k ++ " live fail") (by decide) (by decide)
  rw [h]
  decide

/-- C6 (confirmed): for every non-empty key list (decomposed as
`pre ++ pk :: post`), with no cached results, `Verify` returns the live
outcome of the first key `pk` that live verification accepts — signer,
timestamp and error exactly as that key produced them, so failures of the
earlier keys are discarded — and the keys dispatched to the live verifier
are exactly `pre ++ [pk]`: keys after the first success are never
attempted. -/
theorem C6_first_live_success (live : String → String → VerifyOutcome)
    (v : ImageSignatureVerifier) (pre : List String) (pk : String) (post : List String)
    (him : v.imageRef ≠ "")
    (hsplit : pubkeysOf v = pre ++ pk :: post)
    (hpre : ∀ q ∈ pre, (live v.imageRef q).verified = false)
    (hpk : (live v.imageRef pk).verified = true) :
    (ImageSignatureVerifier.Verify live v []).outcome = live v.imageRef pk
    ∧ (ImageSignatureVerifier.Verify live v []).liveInvoked = pre ++ [pk] := by
  rw [Verify_nil_cache live v him]
  have hfirst : firstLiveSuccess live v.imageRef (pubkeysOf v) = some pk := by
    rw [hsplit]
    exact firstLiveSuccess_append live v.imageRef pre pk post hpre hpk
  constructor
  · exact verifyLiveLoop_outcome_success live v.onMemoryCacheEnabled v.imageRef (pubkeysOf v)
      pk hfirst [] [] []
  · rw [show (⟨(verifyLiveLoop live v.onMemoryCacheEnabled v.imageRef (pubkeysOf v) [] [] []).outcome, v,
        (verifyLiveLoop live v.onMemoryCacheEnabled v.imageRef (pubkeysOf v) [] [] []).cache,
        (verifyLiveLoop live v.onMemoryCacheEnabled v.imageRef (pubkeysOf v) [] [] []).invoked⟩ : VerifyRun).liveInvoked
        = (verifyLiveLoop live v.onMemoryCacheEnabled v.imageRef (pubkeysOf v) [] [] []).invoked from rfl,
      verifyLiveLoop_invoked live v.onMemoryCacheEnabled v.imageRef (pubkeysOf v) [] [] [], hsplit,
      liveUpToFirstSuccess_append live v.imageRef pre pk post hpre hpk]
    simp

/-- C6 witness: keys `k1,k2` where only `k2` verifies — `Verify` returns
`k2`'s signer and timestamp with no error, and `k1`'s failure is not
surfaced; both keys, and only those, were dispatched. -/
theorem C6_witness :
    (ImageSignatureVerifier.Verify
        (fun _ k => if k = "k2" then ⟨true, "signerFromK2", some 42, none⟩
                    else ⟨false, "", none, some "k1 failed"⟩)
        ⟨"img", some "k1,k2", true, ⟨"a", "b", "c", "d", "e"⟩⟩ []).outcome
      = ⟨true, "signerFromK2", some 42, none⟩
    ∧ (ImageSignatureVerifier.Verify
        (fun _ k => if k = "k2" then ⟨true, "signerFromK2", some 42, none⟩
                    else ⟨false, "", none, some "k1 failed"⟩)
        ⟨"img", some "k1,k2", true, ⟨"a", "b", "c", "d", "e"⟩⟩ []).liveInvoked
      = ["k1", "k2"] := by
  have h := C6_first_live_success
    (fun _ k => if k = "k2" then ⟨true, "signerFromK2", some 42, none⟩
                else ⟨false, "", none, some "k1 failed"⟩)
    ⟨"img", some "k1,k2", true, ⟨"a", "b", "c", "d", "e"⟩⟩
    ["k1"] "k2" [] (by decide) (by decide) (by decide) (by decide)
  exact ⟨h.1.trans (by decide), h.2.trans (by decide)⟩

/-- C1 (corrected, amended): for an explicit reference starting with the
in-cluster prefix, `NewSignatureVerifier` returns a blob-path verifier bound
to that resource reference (and with no image reference) only provided the
target object's annotations do not carry a non-empty image-reference value
different from the embedded sentinel; when they do, the annotation wins and
an image verifier bound to that annotation value is returned instead. The
manifest-fetcher factory, handed an empty image reference and the resource
reference, returns the blob fetcher bound to it unconditionally. -/
theorem C1_inCluster_reference (ann : List (String × String)) (sigRef : String)
    (pubkeyPath : Option String) (cfg : AnnotationConfig)
    (ignoreFields : List String) (maxNum : Int)
    (hpre : strHasPre InClusterObjectPrefix sigRef = true) :
    (((mapLookup ann cfg.imageRefKey).getD "" = ""
        ∨ (mapLookup ann cfg.imageRefKey).getD "" = SigRefEmbeddedInAnnotation) →
      NewSignatureVerifier ann sigRef pubkeyPath cfg
        = SignatureVerifierSel.blob ⟨ann, sigRef, normalizePubkeyPath pubkeyPath, cfg⟩)
    ∧ (∀ a, mapLookup ann cfg.imageRefKey = some a → a ≠ "" → a ≠ SigRefEmbeddedInAnnotation →
        NewSignatureVerifier ann sigRef pubkeyPath cfg
          = SignatureVerifierSel.image ⟨a, normalizePubkeyPath pubkeyPath, true, cfg⟩)
    ∧ NewManifestFetcher "" sigRef cfg ignoreFields maxNum
        = ManifestFetcherSel.blob ⟨cfg, sigRef, ignoreFields, maxNum⟩ := by
  refine ⟨?_, ?_, ?_⟩
  · intro hcase
    cases hla : mapLookup ann cfg.imageRefKey with
    | none => simp [NewSignatureVerifier, hpre, hla]
    | some a =>
      rw [hla] at hcase
      simp only [Option.getD_some] at hcase
      rcases hcase with h | h
      · simp [NewSignatureVerifier, hpre, hla, h]
      · simp [NewSignatureVerifier, hpre, hla, h]
  · intro a hla ha hs
    simp [NewSignatureVerifier, hpre, hla, ha, hs]
  · simp [NewManifestFetcher]

/-- C1 counterexample: explicit reference `k8s://ConfigMap/ns1/sig-cm`, but
the target object's annotations carry the image reference `repo/app:v1`
under the configured image-ref key; the factory returns an image verifier
bound to the annotation value — not a blob-path instance bound to the
resource reference — refuting the "regardless of the annotations" part of
the claim. -/
theorem C1_counterexample :
    NewSignatureVerifier [("imgkey", "repo/app:v1")] "k8s://ConfigMap/ns1/sig-cm" none
        ⟨"imgkey", "m", "s", "c", "b"⟩
      = SignatureVerifierSel.image ⟨"repo/app:v1", none, true, ⟨"imgkey", "m", "s", "c", "b"⟩⟩
    ∧ SignatureVerifierSel.isBlob
        (NewSignatureVerifier [("imgkey", "repo/app:v1")] "k8s://ConfigMap/ns1/sig-cm" none
          ⟨"imgkey", "m", "s", "c", "b"⟩) = false := by
  constructor
  · decide
  · decide

/-- C1 witness: the amended statement at the spec's own example — explicit
reference `k8s://ConfigMap/ns1/sig-cm`, no image-ref annotation. -/
theorem C1_witness :
    strHasPre InClusterObjectPrefix "k8s://ConfigMap/ns1/sig-cm" = true
    ∧ NewSignatureVerifier [] "k8s://ConfigMap/ns1/sig-cm" none ⟨"imgkey", "m", "s", "c", "b"⟩
        = SignatureVerifierSel.blob ⟨[], "k8s://ConfigMap/ns1/sig-cm", none, ⟨"imgkey", "m", "s", "c", "b"⟩⟩
    ∧ NewManifestFetcher "" "k8s://ConfigMap/ns1/sig-cm" ⟨"imgkey", "m", "s", "c", "b"⟩ [] 0
        = ManifestFetcherSel.blob ⟨⟨"imgkey", "m", "s", "c", "b"⟩, "k8s://ConfigMap/ns1/sig-cm", [], 0⟩ := by
  have h := C1_inCluster_reference [] "k8s://ConfigMap/ns1/sig-cm" none
    ⟨"imgkey", "m", "s", "c", "b"⟩ [] 0 (by decide)
  exact ⟨by decide, h.1 (by decide), h.2.2⟩

/-- C8 (confirmed): an explicit reference equal to the embedded sentinel
resolves, for every target object, to a blob verifier with an empty resource
reference — the annotations are carried along for the signature material but
are not consulted for an image reference. -/
theorem C8_sentinel_gives_blob (ann : List (String × String)) (pubkeyPath : Option String)
    (cfg : AnnotationConfig) :
    NewSignatureVerifier ann SigRefEmbeddedInAnnotation pubkeyPath cfg
      = SignatureVerifierSel.blob ⟨ann, "", normalizePubkeyPath pubkeyPath, cfg⟩ := by
  have hf : strHasPre InClusterObjectPrefix SigRefEmbeddedInAnnotation = false := by decide
  have hne : ¬( SigRefEmbeddedInAnnotation = "") := by decide
  simp [NewSignatureVerifier, hf, hne]

/-- C7 (confirmed): with no resource reference configured and no message
annotation on the target object, `BlobManifestFetcher.Fetch` returns
`(none, "", none)` — a defined "no signature found" outcome with nil error,
distinct from failure. -/
theorem C7_absent_annotation_not_error (col : BlobFetchCollab) (f : BlobManifestFetcher)
    (obj : TargetObj)
    (hres : f.resourceRefString = "")
    (hmsg : mapLookup obj.annotations f.annotationConfig.messageKey = none) :
    BlobManifestFetcher.Fetch col f obj = (none, "", none) := by
  simp [BlobManifestFetcher.Fetch, hres, hmsg]

/-- C7 witness: a concrete fetcher with empty resource reference and a
target object with no annotations at all. -/
theorem C7_witness :
    mapLookup ([] : List (String × String)) "msg-key" = none
    ∧ BlobManifestFetcher.Fetch
        ⟨fun _ => Except.error "no cluster", fun s => Except.ok s, fun s => s,
         fun _ => Except.ok [], fun _ => "", fun _ _ _ _ => (false, [])⟩
        ⟨⟨"i", "msg-key", "s", "c", "b"⟩, "", [], 0⟩
        ⟨[], "raw"⟩
      = (none, "", none) := by
  constructor
  · rfl
  · exact C7_absent_annotation_not_error _ _ _ rfl rfl

/-- C10 (confirmed): a message or signature annotation entry that is present
but equal to the empty string passes the required-field presence check — the
bundle assembly succeeds with no RequiredFieldMissing-class error — and the
empty field is omitted from the assembled signature map, so each scheme
dispatcher is invoked with nil bytes (`none`) for that field. -/
theorem C10_empty_required_fields
    (getConfigMapData : String → Except String (List (String × String) × String))
    (sigTypeOf : Option String → SigType) (v : BlobSignatureVerifier) (m s : String)
    (hres : v.resourceRef = "")
    (hmsg : mapLookup v.annotations v.annotationConfig.messageKey = some m)
    (hsig : mapLookup v.annotations v.annotationConfig.signatureKey = some s) :
    BlobSignatureVerifier.getSignatures getConfigMapData v
      = Except.ok (mkSigMap m s
          ((mapLookup v.annotations v.annotationConfig.certificateKey).getD "")
          ((mapLookup v.annotations v.annotationConfig.bundleKey).getD ""))
    ∧ (m = "" → (mkSigMap m s
          ((mapLookup v.annotations v.annotationConfig.certificateKey).getD "")
          ((mapLookup v.annotations v.annotationConfig.bundleKey).getD "")).msg = none)
    ∧ (s = "" → (mkSigMap m s
          ((mapLookup v.annotations v.annotationConfig.certificateKey).getD "")
          ((mapLookup v.annotations v.annotationConfig.bundleKey).getD "")).sig = none)
    ∧ (sigTypeOf v.pubkeyPathString = SigType.cosign →
        BlobSignatureVerifier.Verify getConfigMapData sigTypeOf v
          = BlobDispatch.cosignCall (emptyToNone m) (emptyToNone s)
              (emptyToNone ((mapLookup v.annotations v.annotationConfig.certificateKey).getD ""))
              (emptyToNone ((mapLookup v.annotations v.annotationConfig.bundleKey).getD ""))
              v.pubkeyPathString)
    ∧ (sigTypeOf v.pubkeyPathString = SigType.pgp →
        BlobSignatureVerifier.Verify getConfigMapData sigTypeOf v
          = BlobDispatch.pgpCall (emptyToNone m) (emptyToNone s) v.pubkeyPathString)
    ∧ (sigTypeOf v.pubkeyPathString = SigType.x509 →
        BlobSignatureVerifier.Verify getConfigMapData sigTypeOf v
          = BlobDispatch.x509Call (emptyToNone m) (emptyToNone s)
              (emptyToNone ((mapLookup v.annotations v.annotationConfig.certificateKey).getD ""))
              v.pubkeyPathString)
    ∧ emptyToNone "" = none := by
  have h1 : BlobSignatureVerifier.getSignatures getConfigMapData v
      = Except.ok (mkSigMap m s
          ((mapLookup v.annotations v.annotationConfig.certificateKey).getD "")
          ((mapLookup v.annotations v.annotationConfig.bundleKey).getD "")) := by
    simp [BlobSignatureVerifier.getSignatures, hres, hmsg, hsig]
  refine ⟨h1, ?_, ?_, ?_, ?_, ?_, ?_⟩
  · intro hm; simp [mkSigMap, emptyToNone, hm]
  · intro hs'; simp [mkSigMap, emptyToNone, hs']
  · intro ht; simp [BlobSignatureVerifier.Verify, h1, ht, mkSigMap]
  · intro ht; simp [BlobSignatureVerifier.Verify, h1, ht, mkSigMap]
  · intro ht; simp [BlobSignatureVerifier.Verify, h1, ht, mkSigMap]
  · simp [emptyToNone]

/-- C10 witness: message and signature annotations present but empty;
assembly succeeds and a cosign classification dispatches with nil bytes for
every field. -/
theorem C10_witness :
    mapLookup [("mk", ""), ("sk", "")] "mk" = some ""
    ∧ mapLookup [("mk", ""), ("sk", "")] "sk" = some ""
    ∧ BlobSignatureVerifier.Verify (fun _ => Except.error "no cluster")
        (fun _ => SigType.cosign)
        ⟨[("mk", ""), ("sk", "")], "", some "keypath", ⟨"ik", "mk", "sk", "ck", "bk"⟩⟩
      = BlobDispatch.cosignCall none none none none (some "keypath") := by
  have h := C10_empty_required_fields (fun _ => Except.error "no cluster")
    (fun _ => SigType.cosign)
    ⟨[("mk", ""), ("sk", "")], "", some "keypath", ⟨"ik", "mk", "sk", "ck", "bk"⟩⟩
    "" "" rfl (by decide) (by decide)
  exact ⟨by decide, by decide, (h.2.2.2.1 rfl).trans (by decide)⟩

/-- C9 (confirmed): a `Verify` or `Fetch` call leaves the receiver exactly as
it was — the embedding threads the instance through the call and every exit
returns it untouched, mirroring the Go methods, which never assign to a
receiver field; the bound reference and reference kind therefore never
change across calls, and the only state a call updates is the cache. The
blob-path verifier and fetcher embeddings take no mutable state at all, so
the property is immediate for them. -/
theorem C9_instances_immutable (live : String → String → VerifyOutcome)
    (v : ImageSignatureVerifier) (cache : Cache)
    (col : ImageFetchCollab) (f : ImageManifestFetcher) (cache2 : Cache) (obj : TargetObj) :
    (ImageSignatureVerifier.Verify live v cache).inst = v
    ∧ (ImageManifestFetcher.Fetch col f cache2 obj).inst = f := by
  constructor
  · unfold ImageSignatureVerifier.Verify
    dsimp only
    repeat' split
    all_goals rfl
  · unfold ImageManifestFetcher.Fetch
    dsimp only
    repeat' split
    all_goals rfl

/-- C2 (corrected, amended): a cached tuple of wrong arity does yield the
CacheInconsistent error message, but the cache-read helper reports it
together with `found = false`, so the caller treats the entry as a miss
rather than surfacing the error: `fetchManifestInSingleImage` falls through
to the live pull (shown here), and `Verify` likewise falls through to live
verification, the helper's error surviving only in the cache-stage
aggregate, which is discarded once live verification runs. -/
theorem C2_arity_mismatch_reported_as_miss
    (cache : Cache) (imageRef pubkey : String) (t : List CacheVal)
    (hget : cacheGet cache (verifyImageCacheKey imageRef pubkey) = some t)
    (hlen : t.length ≠ 4)
    (cache2 : Cache) (imgRef2 : String) (t2 : List CacheVal)
    (col : ImageFetchCollab) (f : ImageManifestFetcher)
    (hget2 : cacheGet cache2 (fetchManifestCacheKey imgRef2) = some t2)
    (hlen2 : t2.length ≠ 2)
    (hce : f.cacheEnabled = true) :
    getResultFromCache cache imageRef pubkey
      = (false, ⟨false, "", none, some (cacheInconsistentVerifyMsg t.length)⟩)
    ∧ getManifestFromCache col.base64Decode cache2 imgRef2
      = (false, "", some (cacheInconsistentFetchMsg t2.length))
    ∧ fetchManifestInSingleImage col f cache2 imgRef2
      = (match col.getConcatYAMLFromImageRef imgRef2 with
         | Except.ok y => (Except.ok y, setManifestToCache cache2 imgRef2 y none)
         | Except.error e => (Except.error ("failed to get YAMLs in the image: " ++ e), cache2)) := by
  have h1 : getResultFromCache cache imageRef pubkey
      = (false, ⟨false, "", none, some (cacheInconsistentVerifyMsg t.length)⟩) := by
    simp [getResultFromCache, hget, hlen]
  have h2 : getManifestFromCache col.base64Decode cache2 imgRef2
      = (false, "", some (cacheInconsistentFetchMsg t2.length)) := by
    simp [getManifestFromCache, hget2, hlen2]
  refine ⟨h1, h2, ?_⟩
  simp [fetchManifestInSingleImage, hce, h2]

/-- C2 counterexample: a single-key verifier whose cache holds a 3-tuple for
its key. `Verify` does not surface the inconsistency: the live verifier is
invoked for the key and its outcome is returned with no error — the arity
mismatch fell through to live verification; the cache-read helper itself
reported the entry as not found. -/
theorem C2_counterexample :
    (ImageSignatureVerifier.Verify (fun _ _ => ⟨true, "liveSigner", none, none⟩)
        ⟨"img", some "k1", true, ⟨"a", "b", "c", "d", "e"⟩⟩
        [(verifyImageCacheKey "img" "k1",
          [CacheVal.boolV false, CacheVal.strV "", CacheVal.nilV])]).liveInvoked
      = ["k1"]
    ∧ (ImageSignatureVerifier.Verify (fun _ _ => ⟨true, "liveSigner", none, none⟩)
        ⟨"img", some "k1", true, ⟨"a", "b", "c", "d", "e"⟩⟩
        [(verifyImageCacheKey "img" "k1",
          [CacheVal.boolV false, CacheVal.strV "", CacheVal.nilV])]).outcome
      = ⟨true, "liveSigner", none, none⟩
    ∧ (getResultFromCache
        [(verifyImageCacheKey "img" "k1",
          [CacheVal.boolV false, CacheVal.strV "", CacheVal.nilV])]
        "img" "k1").1 = false := by
  refine ⟨by decide, by decide, by decide⟩

/-- C2 witness: concrete wrong-arity tuples for both operations. -/
theorem C2_witness :
    cacheGet [(verifyImageCacheKey "img" "k1",
        [CacheVal.boolV false, CacheVal.strV "", CacheVal.nilV])]
      (verifyImageCacheKey "img" "k1")
      = some [CacheVal.boolV false, CacheVal.strV "", CacheVal.nilV]
    ∧ getResultFromCache [(verifyImageCacheKey "img" "k1",
        [CacheVal.boolV false, CacheVal.strV "", CacheVal.nilV])] "img" "k1"
      = (false, ⟨false, "", none, some (cacheInconsistentVerifyMsg 3)⟩)
    ∧ getManifestFromCache (fun s => Except.ok s)
        [(fetchManifestCacheKey "ref2", [CacheVal.nilV])] "ref2"
      = (false, "", some (cacheInconsistentFetchMsg 1)) := by
  have h := C2_arity_mismatch_reported_as_miss
    [(verifyImageCacheKey "img" "k1", [CacheVal.boolV false, CacheVal.strV "", CacheVal.nilV])]
    "img" "k1" [CacheVal.boolV false, CacheVal.strV "", CacheVal.nilV]
    rfl (by decide)
    [(fetchManifestCacheKey "ref2", [CacheVal.nilV])] "ref2" [CacheVal.nilV]
    ⟨fun _ => Except.error "pull", fun _ _ _ _ => (false, []), fun s => Except.ok s⟩
    ⟨"ref2", ⟨"i", "m", "s", "c", "b"⟩, [], 0, true⟩
    rfl (by decide) rfl
  exact ⟨rfl, h.1, h.2.1⟩

theorem fetchManifestInSingleImage_disabled (col : ImageFetchCollab) (f : ImageManifestFetcher)
    (cache : Cache) (ref : String) (hce : f.cacheEnabled = false) :
    fetchManifestInSingleImage col f cache ref
      = (match col.getConcatYAMLFromImageRef ref with
         | Except.ok y => (Except.ok y, cache)
         | Except.error e => (Except.error ("failed to get YAMLs in the image: " ++ e), cache)) := by
  simp [fetchManifestInSingleImage, hce]

theorem imageFetchLoop_first_match (col : ImageFetchCollab) (f : ImageManifestFetcher)
    (obj : TargetObj) (hce : f.cacheEnabled = false) (pre : List String) :
    ∀ r post cache att y,
      (∀ q ∈ pre, ∃ z, col.getConcatYAMLFromImageRef q = Except.ok z ∧
        (col.findManifestYAML z obj.raw (maxNumPtr f.maxResourceManifestNum) f.ignoreFields).1 = false) →
      col.getConcatYAMLFromImageRef r = Except.ok y →
      (col.findManifestYAML y obj.raw (maxNumPtr f.maxResourceManifestNum) f.ignoreFields).1 = true →
      imageFetchLoop col f obj (pre ++ r :: post) cache att
        = ((some (col.findManifestYAML y obj.raw (maxNumPtr f.maxResourceManifestNum) f.ignoreFields).2,
            r, none), cache, att ++ (pre ++ [r])) := by
  induction pre with
  | nil =>
    intro r post cache att y _ hok hfind
    simp [imageFetchLoop, fetchManifestInSingleImage_disabled col f cache r hce, hok, hfind]
  | cons q pre' ih =>
    intro r post cache att y hpre hok hfind
    obtain ⟨z, hz, hzf⟩ := hpre q (by simp)
    have hrec := ih r post cache (att ++ [q]) y (fun w hw => hpre w (by simp [hw])) hok hfind
    simp [imageFetchLoop, fetchManifestInSingleImage_disabled col f cache q hce, hz, hzf, hrec]

theorem imageFetchLoop_error_abort (col : ImageFetchCollab) (f : ImageManifestFetcher)
    (obj : TargetObj) (hce : f.cacheEnabled = false) (pre : List String) :
    ∀ r post cache att e,
      (∀ q ∈ pre, ∃ z, col.getConcatYAMLFromImageRef q = Except.ok z ∧
        (col.findManifestYAML z obj.raw (maxNumPtr f.maxResourceManifestNum) f.ignoreFields).1 = false) →
      col.getConcatYAMLFromImageRef r = Except.error e →
      imageFetchLoop col f obj (pre ++ r :: post) cache att
        = ((none, "", some ("failed to get YAMLs in the image: " ++ e)), cache, att ++ (pre ++ [r])) := by
  induction pre with
  | nil =>
    intro r post cache att e _ herr
    simp [imageFetchLoop, fetchManifestInSingleImage_disabled col f cache r hce, herr]
  | cons q pre' ih =>
    intro r post cache att e hpre herr
    obtain ⟨z, hz, hzf⟩ := hpre q (by simp)
    have hrec := ih r post cache (att ++ [q]) e (fun w hw => hpre w (by simp [hw])) herr
    simp [imageFetchLoop, fetchManifestInSingleImage_disabled col f cache q hce, hz, hzf, hrec]

theorem imageFetchLoop_no_match (col : ImageFetchCollab) (f : ImageManifestFetcher)
    (obj : TargetObj) (hce : f.cacheEnabled = false) (refs : List String) :
    ∀ cache att,
      (∀ q ∈ refs, ∃ z, col.getConcatYAMLFromImageRef q = Except.ok z ∧
        (col.findManifestYAML z obj.raw (maxNumPtr f.maxResourceManifestNum) f.ignoreFields).1 = false) →
      imageFetchLoop col f obj refs cache att
        = ((none, "", some "failed to find a YAML manifest in the image"), cache, att ++ refs) := by
  induction refs with
  | nil => intro cache att _; simp [imageFetchLoop]
  | cons q rest ih =>
    intro cache att hall
    obtain ⟨z, hz, hzf⟩ := hall q (by simp)
    have hrec := ih cache (att ++ [q]) (fun w hw => hall w (by simp [hw]))
    simp [imageFetchLoop, fetchManifestInSingleImage_disabled col f cache q hce, hz, hzf, hrec]

theorem Fetch_unfold (col : ImageFetchCollab) (f : ImageManifestFetcher) (cache : Cache)
    (obj : TargetObj) (hf : f.imageRefString ≠ "") :
    ImageManifestFetcher.Fetch col f cache obj
      = ⟨(imageFetchLoop col f obj (SplitCommaSeparatedString f.imageRefString) cache []).1.1,
         (imageFetchLoop col f obj (SplitCommaSeparatedString f.imageRefString) cache []).1.2.1,
         (imageFetchLoop col f obj (SplitCommaSeparatedString f.imageRefString) cache []).1.2.2,
         f,
         (imageFetchLoop col f obj (SplitCommaSeparatedString f.imageRefString) cache []).2.1,
         (imageFetchLoop col f obj (SplitCommaSeparatedString f.imageRefString) cache []).2.2⟩ := by
  simp [ImageManifestFetcher.Fetch, hf]

theorem blobResourceLoop_first_match (col : BlobFetchCollab) (f : BlobManifestFetcher)
    (obj : TargetObj) (pre : List String) :
    ∀ r post att y,
      (∀ q ∈ pre, ∃ z, fetchManifestInSingleConfigMap col q = Except.ok z ∧
        (col.findManifestYAML z obj.raw (maxNumPtr f.maxResourceManifestNum) f.ignoreFields).1 = false) →
      fetchManifestInSingleConfigMap col r = Except.ok y →
      (col.findManifestYAML y obj.raw (maxNumPtr f.maxResourceManifestNum) f.ignoreFields).1 = true →
      blobResourceLoop col f obj (pre ++ r :: post) att
        = ((some (col.findManifestYAML y obj.raw (maxNumPtr f.maxResourceManifestNum) f.ignoreFields).2,
            r, none), att ++ (pre ++ [r])) := by
  induction pre with
  | nil =>
    intro r post att y _ hok hfind
    simp [blobResourceLoop, hok, hfind]
  | cons q pre' ih =>
    intro r post att y hpre hok hfind
    obtain ⟨z, hz, hzf⟩ := hpre q (by simp)
    have hrec := ih r post (att ++ [q]) y (fun w hw => hpre w (by simp [hw])) hok hfind
    simp [blobResourceLoop, hz, hzf, hrec]

theorem blobResourceLoop_error_abort (col : BlobFetchCollab) (f : BlobManifestFetcher)
    (obj : TargetObj) (pre : List String) :
    ∀ r post att e,
      (∀ q ∈ pre, ∃ z, fetchManifestInSingleConfigMap col q = Except.ok z ∧
        (col.findManifestYAML z obj.raw (maxNumPtr f.maxResourceManifestNum) f.ignoreFields).1 = false) →
      fetchManifestInSingleConfigMap col r = Except.error e →
      blobResourceLoop col f obj (pre ++ r :: post) att
        = ((none, "", some e), att ++ (pre ++ [r])) := by
  induction pre with
  | nil =>
    intro r post att e _ herr
    simp [blobResourceLoop, herr]
  | cons q pre' ih =>
    intro r post att e hpre herr
    obtain ⟨z, hz, hzf⟩ := hpre q (by simp)
    have hrec := ih r post (att ++ [q]) e (fun w hw => hpre w (by simp [hw])) herr
    simp [blobResourceLoop, hz, hzf, hrec]

theorem blobResourceLoop_no_match (col : BlobFetchCollab) (f : BlobManifestFetcher)
    (obj : TargetObj) (refs : List String) :
    ∀ att,
      (∀ q ∈ refs, ∃ z, fetchManifestInSingleConfigMap col q = Except.ok z ∧
        (col.findManifestYAML z obj.raw (maxNumPtr f.maxResourceManifestNum) f.ignoreFields).1 = false) →
      blobResourceLoop col f obj refs att
        = ((none, "", some "failed to find a YAML manifest in the specified signature configmaps"),
           att ++ refs) := by
  induction refs with
  | nil => intro att _; simp [blobResourceLoop]
  | cons q rest ih =>
    intro att hall
    obtain ⟨z, hz, hzf⟩ := hall q (by simp)
    have hrec := ih (att ++ [q]) (fun w hw => hall w (by simp [hw]))
    simp [blobResourceLoop, hz, hzf, hrec]

/-- C3 (corrected, amended): both fetchers try the comma-separated references
in order and return on the first reference whose manifests match the target;
but a fetch failure on any reference aborts the loop immediately with that
single wrapped error — references after it are never attempted and no
aggregate is built — and when every reference fetches successfully yet none
matches, the error is the fixed ManifestNotFound message of the respective
fetcher, not a semicolon-joined concatenation. (The image fetcher is stated
with its cache disabled so that the per-reference behaviour is captured by
the pull collaborator alone; the blob fetcher has no cache at all.) -/
theorem C3_reference_fallback (col : ImageFetchCollab) (f : ImageManifestFetcher)
    (obj : TargetObj) (cache : Cache)
    (bcol : BlobFetchCollab) (bf : BlobManifestFetcher)
    (hf : f.imageRefString ≠ "") (hce : f.cacheEnabled = false)
    (hbres : bf.resourceRefString ≠ "") :
    (∀ pre r post y, SplitCommaSeparatedString f.imageRefString = pre ++ r :: post →
      (∀ q ∈ pre, ∃ z, col.getConcatYAMLFromImageRef q = Except.ok z ∧
        (col.findManifestYAML z obj.raw (maxNumPtr f.maxResourceManifestNum) f.ignoreFields).1 = false) →
      col.getConcatYAMLFromImageRef r = Except.ok y →
      (col.findManifestYAML y obj.raw (maxNumPtr f.maxResourceManifestNum) f.ignoreFields).1 = true →
      ImageManifestFetcher.Fetch col f cache obj
        = ⟨some (col.findManifestYAML y obj.raw (maxNumPtr f.maxResourceManifestNum) f.ignoreFields).2,
           r, none, f, cache, pre ++ [r]⟩)
    ∧ (∀ pre r post e, SplitCommaSeparatedString f.imageRefString = pre ++ r :: post →
      (∀ q ∈ pre, ∃ z, col.getConcatYAMLFromImageRef q = Except.ok z ∧
        (col.findManifestYAML z obj.raw (maxNumPtr f.maxResourceManifestNum) f.ignoreFields).1 = false) →
      col.getConcatYAMLFromImageRef r = Except.error e →
      ImageManifestFetcher.Fetch col f cache obj
        = ⟨none, "", some ("failed to get YAMLs in the image: " ++ e), f, cache, pre ++ [r]⟩)
    ∧ ((∀ q ∈ SplitCommaSeparatedString f.imageRefString, ∃ z,
        col.getConcatYAMLFromImageRef q = Except.ok z ∧
        (col.findManifestYAML z obj.raw (maxNumPtr f.maxResourceManifestNum) f.ignoreFields).1 = false) →
      ImageManifestFetcher.Fetch col f cache obj
        = ⟨none, "", some "failed to find a YAML manifest in the image", f, cache,
           SplitCommaSeparatedString f.imageRefString⟩)
    ∧ (∀ pre r post y, SplitCommaSeparatedString bf.resourceRefString = pre ++ r :: post →
      (∀ q ∈ pre, ∃ z, fetchManifestInSingleConfigMap bcol q = Except.ok z ∧
        (bcol.findManifestYAML z obj.raw (maxNumPtr bf.maxResourceManifestNum) bf.ignoreFields).1 = false) →
      fetchManifestInSingleConfigMap bcol r = Except.ok y →
      (bcol.findManifestYAML y obj.raw (maxNumPtr bf.maxResourceManifestNum) bf.ignoreFields).1 = true →
      BlobManifestFetcher.fetchManifestFromResource bcol bf obj
        = ((some (bcol.findManifestYAML y obj.raw (maxNumPtr bf.maxResourceManifestNum) bf.ignoreFields).2,
            r, none), pre ++ [r]))
    ∧ (∀ pre r post e, SplitCommaSeparatedString bf.resourceRefString = pre ++ r :: post →
      (∀ q ∈ pre, ∃ z, fetchManifestInSingleConfigMap bcol q = Except.ok z ∧
        (bcol.findManifestYAML z obj.raw (maxNumPtr bf.maxResourceManifestNum) bf.ignoreFields).1 = false) →
      fetchManifestInSingleConfigMap bcol r = Except.error e →
      BlobManifestFetcher.fetchManifestFromResource bcol bf obj
        = ((none, "", some e), pre ++ [r]))
    ∧ ((∀ q ∈ SplitCommaSeparatedString bf.resourceRefString, ∃ z,
        fetchManifestInSingleConfigMap bcol q = Except.ok z ∧
        (bcol.findManifestYAML z obj.raw (maxNumPtr bf.maxResourceManifestNum) bf.ignoreFields).1 = false) →
      BlobManifestFetcher.fetchManifestFromResource bcol bf obj
        = ((none, "", some "failed to find a YAML manifest in the specified signature configmaps"),
           SplitCommaSeparatedString bf.resourceRefString)) := by
  refine ⟨?_, ?_, ?_, ?_, ?_, ?_⟩
  · intro pre r post y hsplit hpre hok hfind
    rw [Fetch_unfold col f cache obj hf, hsplit,
        imageFetchLoop_first_match col f obj hce pre r post cache [] y hpre hok hfind]
    simp
  · intro pre r post e hsplit hpre herr
    rw [Fetch_unfold col f cache obj hf, hsplit,
        imageFetchLoop_error_abort col f obj hce pre r post cache [] e hpre herr]
    simp
  · intro hall
    rw [Fetch_unfold col f cache obj hf,
        imageFetchLoop_no_match col f obj hce (SplitCommaSeparatedString f.imageRefString)
          cache [] hall]
    simp
  · intro pre r post y hsplit hpre hok hfind
    unfold BlobManifestFetcher.fetchManifestFromResource
    rw [if_neg hbres, hsplit,
        blobResourceLoop_first_match bcol bf obj pre r post [] y hpre hok hfind]
    simp
  · intro pre r post e hsplit hpre herr
    unfold BlobManifestFetcher.fetchManifestFromResource
    rw [if_neg hbres, hsplit,
        blobResourceLoop_error_abort bcol bf obj pre r post [] e hpre herr]
    simp
  · intro hall
    unfold BlobManifestFetcher.fetchManifestFromResource
    rw [if_neg hbres,
        blobResourceLoop_no_match bcol bf obj (SplitCommaSeparatedString bf.resourceRefString)
          [] hall]
    simp

/-- C3 counterexample: references `a,b` where pulling `a` fails and `b`
would match. `Fetch` aborts on `a` with the single wrapped error — `b` is
never attempted and no semicolon-joined aggregate is built — refuting both
the keep-trying and the aggregate-error parts of the claim. -/
theorem C3_counterexample :
    (ImageManifestFetcher.Fetch
        ⟨fun ref => if ref = "a" then Except.error "pull a failed" else Except.ok "yamlB",
         fun y _ _ _ => (y == "yamlB", ["matched"]), fun s => Except.ok s⟩
        ⟨"a,b", ⟨"i", "m", "s", "c", "b"⟩, [], 0, false⟩ [] ⟨[], "obj"⟩).errMsg
      = some "failed to get YAMLs in the image: pull a failed"
    ∧ (ImageManifestFetcher.Fetch
        ⟨fun ref => if ref = "a" then Except.error "pull a failed" else Except.ok "yamlB",
         fun y _ _ _ => (y == "yamlB", ["matched"]), fun s => Except.ok s⟩
        ⟨"a,b", ⟨"i", "m", "s", "c", "b"⟩, [], 0, false⟩ [] ⟨[], "obj"⟩).manifests
      = none
    ∧ (ImageManifestFetcher.Fetch
        ⟨fun ref => if ref = "a" then Except.error "pull a failed" else Except.ok "yamlB",
         fun y _ _ _ => (y == "yamlB", ["matched"]), fun s => Except.ok s⟩
        ⟨"a,b", ⟨"i", "m", "s", "c", "b"⟩, [], 0, false⟩ [] ⟨[], "obj"⟩).attempted
      = ["a"] := by
  refine ⟨by decide, by decide, by decide⟩

/-- C3 witness: the first-match part of the amended statement at a concrete
two-reference fetcher — `a` fetches but does not match, `b` matches. -/
theorem C3_witness :
    SplitCommaSeparatedString "a,b" = ["a"] ++ "b" :: []
    ∧ ImageManifestFetcher.Fetch
        ⟨fun ref => if ref = "a" then Except.ok "yamlA" else Except.ok "yamlB",
         fun y _ _ _ => (y == "yamlB", ["matched"]), fun s => Except.ok s⟩
        ⟨"a,b", ⟨"i", "m", "s", "c", "b"⟩, [], 0, false⟩ [] ⟨[], "obj"⟩
      = ⟨some ["matched"], "b", none, ⟨"a,b", ⟨"i", "m", "s", "c", "b"⟩, [], 0, false⟩,
         [], ["a", "b"]⟩ := by
  have h := (C3_reference_fallback
      ⟨fun ref => if ref = "a" then Except.ok "yamlA" else Except.ok "yamlB",
       fun y _ _ _ => (y == "yamlB", ["matched"]), fun s => Except.ok s⟩
      ⟨"a,b", ⟨"i", "m", "s", "c", "b"⟩, [], 0, false⟩ ⟨[], "obj"⟩ []
      ⟨fun _ => Except.error "nc", fun s => Except.ok s, fun s => s, fun _ => Except.ok [],
       fun _ => "", fun _ _ _ _ => (false, [])⟩
      ⟨⟨"i", "m", "s", "c", "b"⟩, "r1", [], 0⟩
      (by decide) rfl (by decide)).1
      ["a"] "b" [] "yamlB" (by decide)
      (by
        intro q hq
        simp only [List.mem_singleton] at hq
        subst hq
        exact ⟨"yamlA", rfl, rfl⟩)
      rfl rfl
  exact ⟨by decide, h.trans (by decide)⟩
